import Mathlib

set_option maxHeartbeats 1000000

/-!
Verification of the RST-to-Markdown transpiler and the Markdown cell
segmenter of `convert_rst.py`.  Lines are modelled as `List Char`, a
document as a `List Line`; every Python regular expression used by the
source is translated into an executable character-level matcher.
-/

namespace ConvertRst

/-- The backtick character (code point 96). -/
def tick : Char := Char.ofNat 96

/-- Whitespace in the sense of Python's str.strip and the regex class \s. -/
def isSpaceChar (c : Char) : Bool :=
  c = ' ' || c = '\t' || c = '\n' || c = '\r' || c = Char.ofNat 11 || c = Char.ofNat 12

/-- Word characters: the ASCII reading of the regex class \w. -/
def isWordChar (c : Char) : Bool := c.isAlphanum || c = '_'

/-- Letters or underscore: the case-insensitive reading of the class [A-Z_]. -/
def isAlphaU (c : Char) : Bool := c.isAlpha || c = '_'

/-- One line of text. -/
abbrev Line := List Char

/-- Python str.lstrip. -/
def pyLStrip (l : Line) : Line := l.dropWhile isSpaceChar

/-- Python str.rstrip. -/
def pyRStrip (l : Line) : Line := (l.reverse.dropWhile isSpaceChar).reverse

/-- Python str.strip. -/
def pyStrip (l : Line) : Line := pyRStrip (pyLStrip l)

/-- Leading-whitespace width of a line: len(line) - len(line.lstrip()). -/
def leadWs (l : Line) : Nat := (l.takeWhile isSpaceChar).length

/-- Indentation as computed by the source: 0 for blank lines. -/
def indentOf (l : Line) : Nat := if (pyStrip l).isEmpty then 0 else leadWs l

/-- True on blank lines (line.strip() is empty). -/
def blankL (l : Line) : Bool := (pyStrip l).isEmpty

/-- The first character is `c`. -/
def headIs (c : Char) : Line → Bool
  | [] => false
  | x :: _ => x = c

/-- Split text on newline characters, as Python str.split of a newline does. -/
def splitLines : List Char → List Line
  | [] => [[]]
  | c :: cs =>
    if c = '\n' then [] :: splitLines cs
    else
      match splitLines cs with
      | [] => [[c]]
      | l :: ls => (c :: l) :: ls

/-- Join lines with newline characters. -/
def joinLines : List Line → List Char
  | [] => []
  | [l] => l
  | l :: l2 :: ls => l ++ '\n' :: joinLines (l2 :: ls)

/-- Python str.expandtabs(4), tracking the current column. -/
def expandTabsFrom : Nat → List Char → List Char
  | _, [] => []
  | col, c :: cs =>
    if c = '\t' then
      List.replicate (4 - col % 4) ' ' ++ expandTabsFrom (col + (4 - col % 4)) cs
    else if c = '\n' || c = '\r' then c :: expandTabsFrom 0 cs
    else c :: expandTabsFrom (col + 1) cs

/-- expand_tabs from the source (tab size 4). -/
def expand_tabs (s : List Char) : List Char := expandTabsFrom 0 s

/-- Case-insensitive character equality (via toLower, as IGNORECASE does). -/
def icEq (a b : Char) : Bool := a.toLower = b.toLower

/-- Case-insensitive "the text starts with this pattern". -/
def icLeads : List Char → List Char → Bool
  | [], _ => true
  | _ :: _, [] => false
  | p :: ps, c :: cs => icEq p c && icLeads ps cs

/-- Case-insensitive substring search (re.search of a literal). -/
def icSubstr (p : List Char) : List Char → Bool
  | [] => p.isEmpty
  | c :: cs => icLeads p (c :: cs) || icSubstr p cs

/-- Suffixes of a text starting just after each newline character. -/
def tailStarts : List Char → List (List Char)
  | [] => []
  | c :: cs => if c = '\n' then cs :: tailStarts cs else tailStarts cs

/-- All line-start suffixes of a text: the places a MULTILINE ^ anchors at. -/
def lineStarts (cs : List Char) : List (List Char) := cs :: tailStarts cs

/-- Drop trailing blank lines (the "pop while last is blank" loops). -/
def dropTrailingBlanks (rs : List Line) : List Line :=
  (rs.reverse.dropWhile blankL).reverse

/-! ### The cell segmenter (markdown_to_notebook, lines 545-689) -/

/-- Matcher for the fence-open pattern (three or more backticks, optional
whitespace, an optional word tag, then end of line); returns the fence
token and the declared tag. -/
def matchFenceOpen (l : Line) : Option (Line × Line) :=
  let run := l.takeWhile (fun c => c = tick)
  if 3 ≤ run.length then
    let r1 := (l.dropWhile (fun c => c = tick)).dropWhile isSpaceChar
    if (r1.dropWhile isWordChar).isEmpty then some (run, r1.takeWhile isWordChar)
    else none
  else none

/-- The quoted-fence marker: the line starts with "> " and three backticks. -/
def quoteFenceLead (l : Line) : Bool :=
  ('>' :: ' ' :: tick :: tick :: [tick]).isPrefixOf l

/-- Pattern for an assignment line, class [A-Z_] read case-insensitively. -/
def patCapsAssign (s : List Char) : Bool :=
  !(s.takeWhile isAlphaU).isEmpty &&
    headIs '=' ((s.dropWhile isAlphaU).dropWhile isSpaceChar)

/-- Pattern for a shebang-style comment: optional whitespace, then '#',
then "bin/" later on the same line (case-insensitive). -/
def patShebang (s : List Char) : Bool :=
  match s.dropWhile isSpaceChar with
  | c :: cs => c = '#' && icSubstr ("bin/".toList) (cs.takeWhile (fun d => !(d = '\n')))
  | [] => false

/-- Pattern for a line starting (after whitespace) with '<'. -/
def patLt (s : List Char) : Bool := headIs '<' (s.dropWhile isSpaceChar)

/-- Pattern for a bracketed section: whitespace, '[', then ']' on the same line. -/
def patBracket (s : List Char) : Bool :=
  match s.dropWhile isSpaceChar with
  | c :: cs => c = '[' && (cs.takeWhile (fun d => !(d = '\n'))).any (fun d => d = ']')
  | [] => false

/-- Command patterns such as export/set/call: the keyword (case-insensitive)
followed by at least one whitespace character. -/
def patCmd (kw : List Char) (s : List Char) : Bool :=
  icLeads kw s &&
    match s.drop kw.length with
    | c :: _ => isSpaceChar c
    | [] => false

/-- Pattern for a batch echo line (case-insensitive, nothing required after). -/
def patEcho (s : List Char) : Bool := icLeads ("@echo".toList) s

/-- Lead-in phrase patterns: optional whitespace then the phrase, case-insensitive. -/
def patPhrase (ph : List Char) (s : List Char) : Bool :=
  icLeads ph (s.dropWhile isSpaceChar)

/-- Some fixed non-Python signature matches at this line-start suffix. -/
def nonPyAt (s : List Char) : Bool :=
  patCapsAssign s || patShebang s || patLt s || patBracket s ||
  patCmd ("export".toList) s || patCmd ("set".toList) s || patCmd ("call".toList) s ||
  patEcho s || patCmd ("path".toList) s || patCmd ("start".toList) s ||
  patPhrase ("initialize the".toList) s || patPhrase ("create the".toList) s ||
  patPhrase ("the main".toList) s || patPhrase ("for each".toList) s

/-- The untagged-fence content heuristic: some line start of the content
matches one of the fixed non-Python signatures (lines 617-636). -/
def hasNonPythonPattern (content : List Char) : Bool :=
  (lineStarts content).any nonPyAt

/-- One notebook cell: executable code or prose markdown. -/
inductive Cell where
  | code : List Char → Cell
  | markdown : List Char → Cell
deriving DecidableEq, Repr

/-- Content of a cell. -/
def Cell.content : Cell → List Char
  | code c => c
  | markdown c => c

/-- The cell is a code cell. -/
def Cell.isCode : Cell → Bool
  | code _ => true
  | markdown _ => false

/-- The cell is a markdown (prose) cell. -/
def Cell.isMd : Cell → Bool
  | code _ => false
  | markdown _ => true

/-- The declared tag denotes the executable language (python, py, or none). -/
def isPyTag (lang : Line) : Bool :=
  lang == ("python".toList) || lang == ("py".toList) || lang == ([] : List Char)

/-- Fence-close classification of a non-empty body (lines 611-643). -/
def classifyFence (lang content : List Char) : Cell :=
  let isPy := isPyTag lang
  let isPy2 := if isPy && lang == ([] : List Char) then !(hasNonPythonPattern content) else isPy
  if isPy2 && isPyTag lang then Cell.code content
  else
    let tag := if lang == ([] : List Char) then ("text".toList) else lang
    Cell.markdown ((tick :: tick :: [tick]) ++ tag ++ '\n' :: content ++ '\n' :: tick :: tick :: [tick])

/-- Mutable state of the segmenter loop. -/
structure SegState where
  cells : List Cell
  current : List Line
  inCode : Bool
  codeLang : Line
  fencePat : Line
  inQuote : Bool
  quoteCode : Bool
deriving Repr

/-- Initial segmenter state. -/
def initSeg : SegState := ⟨[], [], false, [], [], false, false⟩

/-- Flush pending prose lines as one markdown cell when non-empty after strip. -/
def flushProse (cur : List Line) : List Cell :=
  let content := pyStrip (joinLines cur)
  if content.isEmpty then [] else [Cell.markdown content]

/-- End-of-input flush (lines 653-660). -/
def flushFinal (st : SegState) : List Cell :=
  let content := pyStrip (joinLines st.current)
  if content.isEmpty then []
  else if st.inCode && (st.codeLang == ("python".toList) || st.codeLang == ("py".toList)) then
    [Cell.code content]
  else [Cell.markdown content]

/-- The segmenter's main loop over markdown lines (lines 567-660). -/
def segLoop (st : SegState) : List Line → List Cell
  | [] => st.cells ++ flushFinal st
  | l :: rest =>
    if quoteFenceLead l then
      segLoop { st with inQuote := true, current := st.current ++ [l],
                        quoteCode := !st.quoteCode } rest
    else if st.quoteCode then
      segLoop { st with current := st.current ++ [l] } rest
    else if (matchFenceOpen l).isSome && !st.inCode then
      let ft := (matchFenceOpen l).getD ([], [])
      segLoop { st with cells := st.cells ++ flushProse st.current, current := [],
                        inCode := true, fencePat := ft.1, codeLang := ft.2 } rest
    else if st.inCode && pyStrip l == st.fencePat then
      let content := pyStrip (joinLines st.current)
      let newCells := if content.isEmpty then [] else [classifyFence st.codeLang content]
      segLoop { st with cells := st.cells ++ newCells, current := [], inCode := false,
                        fencePat := [], codeLang := [] } rest
    else
      segLoop { st with current := st.current ++ [l] } rest

/-- Join accumulated markdown contents with a blank-line separator. -/
def joinBlank : List (List Char) → List Char
  | [] => []
  | [c] => c
  | c :: c2 :: cs => c ++ '\n' :: '\n' :: joinBlank (c2 :: cs)

/-- Worker for combining consecutive markdown cells (lines 662-676). -/
def combineGo : List Cell → List (List Char) → List Cell
  | [], acc => if acc.isEmpty then [] else [Cell.markdown (joinBlank acc)]
  | Cell.markdown c :: rest, acc => combineGo rest (acc ++ [c])
  | Cell.code c :: rest, acc =>
    (if acc.isEmpty then [] else [Cell.markdown (joinBlank acc)]) ++
      Cell.code c :: combineGo rest []

/-- Combine consecutive markdown cells into one. -/
def combineCells (cells : List Cell) : List Cell := combineGo cells []

/-- Fallback heading cell for an empty notebook (line 687). -/
def fallbackCell (title : List Char) : Cell :=
  Cell.markdown (if title.isEmpty then ("# Untitled".toList) else '#' :: ' ' :: title)

/-- Segment a markdown document, given as lines, into notebook cells. -/
def segment (doc : List Line) (title : List Char) : List Cell :=
  let cs := combineCells (segLoop initSeg doc)
  if cs.isEmpty then [fallbackCell title] else cs

/-- Top-level conversion of markdown text to the notebook's cell sequence. -/
def markdown_to_notebook (md : String) (title : String) : List Cell :=
  segment (splitLines md.toList) title.toList

/-! ### The inline role rewriter (lines 465-523) -/

/-- Scanning substitution engine: at each position try the matcher; on a
match emit its replacement and continue after the consumed text, else keep
one character.  Fuel (always instantiated with the text length) bounds the
recursion; every matcher consumes at least one character, so the fuel is
never exhausted. -/
def subScanF (m : List Char → Option (List Char × List Char)) : Nat → List Char → List Char
  | _, [] => []
  | 0, l => l
  | fuel + 1, c :: rest =>
    match m (c :: rest) with
    | some (rep, remaining) => rep ++ subScanF m fuel remaining
    | none => c :: subScanF m fuel rest

/-- Apply a scanning substitution over a whole line. -/
def applySub (m : List Char → Option (List Char × List Char)) (l : List Char) : List Char :=
  subScanF m l.length l

/-- Matcher for a role with a backtick-free body, replaced pre ++ body ++ post. -/
def tryRole (role pre post : List Char) (s : List Char) : Option (List Char × List Char) :=
  if (':' :: role ++ [':', tick]).isPrefixOf s then
    let t := s.drop (role.length + 3)
    let body := t.takeWhile (fun c => !(c = tick))
    if body.isEmpty then none
    else if headIs tick (t.drop body.length) then
      some (pre ++ body ++ post, t.drop (body.length + 1))
    else none
  else none

/-- Matcher for a role of display text plus an angle-bracketed target; the
replacement keeps only the display text, wrapped pre ++ body ++ post. -/
def tryRoleTgt (role pre post : List Char) (s : List Char) : Option (List Char × List Char) :=
  if (':' :: role ++ [':', tick]).isPrefixOf s then
    let t := s.drop (role.length + 3)
    let body := t.takeWhile (fun c => !(c = '<') && !(c = tick))
    if body.isEmpty then none
    else
      match t.drop body.length with
      | '<' :: u =>
        let tgt := u.takeWhile (fun c => !(c = '>'))
        if tgt.isEmpty then none
        else
          match u.drop tgt.length with
          | '>' :: c2 :: v => if c2 = tick then some (pre ++ body ++ post, v) else none
          | _ => none
      | _ => none
  else none

/-- Matcher for the api/pyqgis roles: both the display text and the target
may be empty, and the replacement is the bare display text. -/
def tryRoleStar (role : List Char) (s : List Char) : Option (List Char × List Char) :=
  if (':' :: role ++ [':', tick]).isPrefixOf s then
    let t := s.drop (role.length + 3)
    let body := t.takeWhile (fun c => !(c = '<') && !(c = tick))
    match t.drop body.length with
    | '<' :: u =>
      let tgt := u.takeWhile (fun c => !(c = '>'))
      match u.drop tgt.length with
      | '>' :: c2 :: v => if c2 = tick then some (body, v) else none
      | _ => none
    | _ => none
  else none

/-- Matcher for the source role, replaced by a markdown link of text and path. -/
def trySourceRole (s : List Char) : Option (List Char × List Char) :=
  if (':' :: ("source".toList) ++ [':', tick]).isPrefixOf s then
    let t := s.drop 9
    let body := t.takeWhile (fun c => !(c = '<') && !(c = tick))
    if body.isEmpty then none
    else
      match t.drop body.length with
      | '<' :: u =>
        let tgt := u.takeWhile (fun c => !(c = '>'))
        if tgt.isEmpty then none
        else
          match u.drop tgt.length with
          | '>' :: c2 :: v =>
            if c2 = tick then some ('[' :: body ++ ']' :: '(' :: tgt ++ [')'], v) else none
          | _ => none
      | _ => none
  else none

/-- Matcher for double-backtick spans, replaced by single-backtick spans. -/
def tryDouble (s : List Char) : Option (List Char × List Char) :=
  match s with
  | c1 :: c2 :: t =>
    if c1 = tick && c2 = tick then
      let body := t.takeWhile (fun c => !(c = tick))
      if body.isEmpty then none
      else
        match t.drop body.length with
        | d1 :: d2 :: v =>
          if d1 = tick && d2 = tick then some (tick :: body ++ [tick], v) else none
        | _ => none
    else none
  | _ => none

/-- Matcher for external-link roles: backtick, link text, an angle-bracketed
url, backtick, and one or more trailing underscores (all consumed). -/
def tryLink (s : List Char) : Option (List Char × List Char) :=
  match s with
  | c0 :: t =>
    if c0 = tick then
      let body := t.takeWhile (fun c => !(c = '<'))
      if body.isEmpty then none
      else
        match t.drop body.length with
        | '<' :: u =>
          let tgt := u.takeWhile (fun c => !(c = '>'))
          if tgt.isEmpty then none
          else
            match u.drop tgt.length with
            | '>' :: d :: '_' :: v =>
              if d = tick then
                some ('[' :: body ++ ']' :: '(' :: tgt ++ [')'], v.dropWhile (fun c => c = '_'))
              else none
            | _ => none
        | _ => none
    else none
  | [] => none

/-- The full ordered inline-substitution pass applied to one plain line. -/
def rewriteInline (l : List Char) : List Char :=
  let l := applySub (tryRole ("file".toList) [tick] [tick]) l
  let l := applySub (tryRole ("menuselection".toList) ("**".toList) ("**".toList)) l
  let l := applySub (tryRole ("command".toList) [tick] [tick]) l
  let l := applySub (tryRole ("data".toList) [tick] [tick]) l
  let l := applySub (tryRole ("const".toList) [tick] [tick]) l
  let l := applySub (tryRole ("kbd".toList) ("<kbd>".toList) ("</kbd>".toList)) l
  let l := applySub (tryRole ("guilabel".toList) ("**".toList) ("**".toList)) l
  let l := applySub (tryRole ("envvar".toList) [tick] [tick]) l
  let l := applySub (tryRoleTgt ("class".toList) [tick] [tick]) l
  let l := applySub (tryRole ("class".toList) [tick] [tick]) l
  let l := applySub (tryRoleTgt ("meth".toList) [tick] [tick]) l
  let l := applySub (tryRole ("meth".toList) [tick] [tick]) l
  let l := applySub (tryRoleTgt ("func".toList) [tick] [tick]) l
  let l := applySub (tryRole ("func".toList) [tick] [tick]) l
  let l := applySub (tryRoleTgt ("attr".toList) [tick] [tick]) l
  let l := applySub (tryRole ("attr".toList) [tick] [tick]) l
  let l := applySub (tryRole ("mod".toList) [tick] [tick]) l
  let l := applySub (tryRole ("ref".toList) ['*'] ['*']) l
  let l := applySub (tryRole ("doc".toList) ['*'] ['*']) l
  let l := applySub (tryRoleStar ("api".toList)) l
  let l := applySub (tryRoleStar ("pyqgis".toList)) l
  let l := applySub trySourceRole l
  let l := applySub tryDouble l
  let l := applySub tryLink l
  l

example :
    rewriteInline (":file:`a.txt` and ``x``".toList) = ("`a.txt` and `x`".toList) := by decide

example :
    rewriteInline (":class:`QgsPoint <qgis.core.QgsPoint>`".toList) =
      (("`QgsPoint `").toList) := by decide

example :
    rewriteInline (("`QGIS <https://qgis.org>`_").toList) =
      ("[QGIS ](https://qgis.org)".toList) := by decide

example :
    rewriteInline (("``:file:``a``").toList) = (("`:file:`a``").toList) := by decide

example :
    rewriteInline (rewriteInline (("``:file:``a``").toList)) = (("`a`").toList) := by decide

/-! ### The RST-to-Markdown transpiler (rst_to_markdown, lines 39-542) -/

/-- Matcher for a directive line: two dots, whitespace, the keyword, then "::". -/
def matchDotsKw (kw : List Char) (s : List Char) : Bool :=
  ("..".toList).isPrefixOf s &&
    (let rest := s.drop 2
     !(rest.takeWhile isSpaceChar).isEmpty &&
       (kw ++ [':', ':']).isPrefixOf (rest.dropWhile isSpaceChar))

/-- The testsetup/testcleanup/testoutput directive family (line 57). -/
def matchTestFamily (s : List Char) : Bool :=
  matchDotsKw ("testsetup".toList) s || matchDotsKw ("testcleanup".toList) s ||
    matchDotsKw ("testoutput".toList) s

/-- The highlight directive (line 78). -/
def matchHighlight (s : List Char) : Bool := matchDotsKw ("highlight".toList) s

/-- The only-html directive (line 87). -/
def matchOnlyHtml (s : List Char) : Bool :=
  ("..".toList).isPrefixOf s &&
    (let rest := s.drop 2
     !(rest.takeWhile isSpaceChar).isEmpty &&
       (let r := rest.dropWhile isSpaceChar
        ("only::".toList).isPrefixOf r &&
          (let r2 := r.drop 6
           !(r2.takeWhile isSpaceChar).isEmpty &&
             ("html".toList).isPrefixOf (r2.dropWhile isSpaceChar))))

/-- The index directive (line 106). -/
def matchIndex (s : List Char) : Bool := matchDotsKw ("index".toList) s

/-- A target definition line of two dots, whitespace, underscore, a word and
a colon at the end of the line (line 113). -/
def matchTargetDef (s : List Char) : Bool :=
  ("..".toList).isPrefixOf s &&
    (let rest := s.drop 2
     !(rest.takeWhile isSpaceChar).isEmpty &&
       (match rest.dropWhile isSpaceChar with
        | '_' :: t =>
          let run := t.takeWhile (fun c => isWordChar c || c = '-')
          !run.isEmpty &&
            (match t.drop run.length with
             | ':' :: u => u.all isSpaceChar
             | _ => false)
        | _ => false))

/-- The stripped lookahead qualifies as a title underline: at least three
repetitions of a single character from the underline set (lines 120-124). -/
def isUnderline (us : List Char) : Bool :=
  match us with
  | [] => false
  | c :: rest =>
    rest.all (fun d => d = c) &&
      (c = '=' || c = '-' || c = '~' || c = '*' || c = '+' ||
        c = '^' || c = '"' || c = '\'') && 3 ≤ us.length

/-- Heading level of an underline character; any other qualifying character
defaults to level 2 (lines 129-130). -/
def levelOf (c : Char) : Nat :=
  if c = '*' then 1 else if c = '=' then 2 else if c = '-' then 3
  else if c = '~' then 4 else if c = '+' then 5 else if c = '^' then 6 else 2

/-- Emit a title: retract a matching overline (forcing level 1), map the
underline character to a level, and emit the heading between blank lines. -/
def titleOut (result : List Line) (title : List Char) (uc : Char) : List Line :=
  let retract :=
    match result.getLast? with
    | some prev =>
      let p := pyStrip prev
      !p.isEmpty && p.all (fun d => d = uc)
    | none => false
  let lvl := if retract then 1 else levelOf uc
  (if retract then result.dropLast else result) ++
    [[], List.replicate lvl '#' ++ ' ' :: title, []]

/-- The testcode directive (line 146). -/
def matchTestcode (s : List Char) : Bool := matchDotsKw ("testcode".toList) s

/-- The code-block directive; returns the captured language word, which may
be empty when no language was given (line 193). -/
def matchCodeBlockDir (s : List Char) : Option (List Char) :=
  if ("..".toList).isPrefixOf s then
    let rest := s.drop 2
    if (rest.takeWhile isSpaceChar).isEmpty then none
    else
      let r := rest.dropWhile isSpaceChar
      if ("code-block::".toList).isPrefixOf r then
        some (((r.drop 12).dropWhile isSpaceChar).takeWhile isWordChar)
      else none
  else none

/-- Strip the base indentation from a collected code line (lines 175-179). -/
def stripBase (base : Nat) (l : Line) : Line :=
  if base < l.length then l.drop base else pyLStrip l

/-- Collect the indented body of a code block: stop at the first non-blank
line indented less than the base; blank lines are kept as empty lines. -/
def collectCode (base : Nat) : List Line → List Line × List Line
  | [] => ([], [])
  | l :: rest =>
    if !(blankL l) && indentOf l < base then ([], l :: rest)
    else
      let p := collectCode base rest
      ((if blankL l then [] else stripBase base l) :: p.1, p.2)

/-- Break test used by the skip-directive families: non-blank, indented at or
below the base, and not starting with a space (lines 68-72). -/
def dedentBreak (base : Nat) (l : Line) : Bool :=
  !(blankL l) && indentOf l ≤ base && !(headIs ' ' l)

/-- Skip the body of a testsetup-family or only-html block. -/
def skipDedent (base : Nat) (ls : List Line) : List Line :=
  ls.dropWhile (fun l => !(dedentBreak base l))

/-- Skip the body of a highlight directive (lines 80-83). -/
def skipHighlightBody : List Line → List Line
  | [] => []
  | l :: rest =>
    if blankL l || headIs ' ' l then
      if !(blankL l) && !(headIs ':' (pyStrip l)) then l :: rest
      else skipHighlightBody rest
    else l :: rest

/-- Skip blank and indented lines (the index directive, lines 108-109). -/
def skipIndented (ls : List Line) : List Line :=
  ls.dropWhile (fun l => blankL l || headIs ' ' l)

/-- Skip blank lines. -/
def skipBlanks (ls : List Line) : List Line := ls.dropWhile blankL

/-- Skip blank lines and option lines starting with a colon (lines 199-202). -/
def skipBlankOpt (ls : List Line) : List Line :=
  ls.dropWhile (fun l => blankL l || headIs ':' (pyStrip l))

/-- Skip the body of an unknown directive: until a non-blank line at or
below the directive's indentation (lines 453-462). -/
def skipUnknownBody (base : Nat) (ls : List Line) : List Line :=
  ls.dropWhile (fun l => !(!(blankL l) && indentOf l ≤ base))

/-- Pop trailing blank output lines, never popping the guard line (the
testcode pop loop, lines 185-186). -/
def popTrailingGuard (guard : Line) (rs : List Line) : List Line :=
  (rs.reverse.dropWhile (fun r => blankL r && !(r == guard))).reverse

/-- INI section pattern at a line start: '[' then ']' on the same line. -/
def patIniSection (s : List Char) : Bool :=
  match s with
  | c :: cs => c = '[' && (cs.takeWhile (fun d => !(d = '\n'))).any (fun d => d = ']')
  | [] => false

/-- INI comment pattern at a line start: a semicolon. -/
def patIniComment (s : List Char) : Bool := headIs ';' s

/-- Key-equals-value pattern at a line start: word characters, optional
whitespace, '=', optional whitespace, then a word character. -/
def patKeyVal (s : List Char) : Bool :=
  !(s.takeWhile isWordChar).isEmpty &&
    (match (s.dropWhile isWordChar).dropWhile isSpaceChar with
     | '=' :: t =>
       (match t.dropWhile isSpaceChar with
        | c :: _ => isWordChar c
        | [] => false)
     | _ => false)

/-- The body matches an INI-style marker (lines 290-294). -/
def hasIniPattern (content : List Char) : Bool :=
  (lineStarts content).any (fun s => patIniSection s || patIniComment s || patKeyVal s)

/-- A code-statement keyword at a line start after optional whitespace,
followed by a whitespace character (lines 296-300). -/
def patPyKw (s : List Char) : Bool :=
  let r := s.dropWhile isSpaceChar
  ([("def".toList), ("class".toList), ("import".toList), ("from".toList), ("if".toList),
    ("for".toList), ("while".toList), ("try".toList), ("with".toList)]).any (fun kw =>
      kw.isPrefixOf r &&
        (match r.drop kw.length with
         | c :: _ => isSpaceChar c
         | [] => false))

/-- The body matches a common code-statement keyword pattern. -/
def hasPyKeyword (content : List Char) : Bool := (lineStarts content).any patPyKw

/-- The stripped line ends in a double colon. -/
def endsDoubleColon (s : List Char) : Bool := ([':', ':']).isSuffixOf s

/-- The figure directive; returns the captured, stripped image path (line 314). -/
def matchFigure (s : List Char) : Option (List Char) :=
  if ("..".toList).isPrefixOf s then
    let rest := s.drop 2
    if (rest.takeWhile isSpaceChar).isEmpty then none
    else
      let r := rest.dropWhile isSpaceChar
      if ("figure::".toList).isPrefixOf r then
        let r2 := (r.drop 8).dropWhile isSpaceChar
        if r2.isEmpty then none else some (pyStrip r2)
      else none
  else none

/-- Scan a figure body of indented or blank lines, remembering the last
non-option caption line; returns the caption and the remaining lines. -/
def figureScan (cap : List Char) : List Line → List Char × List Line
  | [] => (cap, [])
  | l :: rest =>
    if ("   ".toList).isPrefixOf l || blankL l then
      let opt := pyStrip l
      figureScan (if !opt.isEmpty && !(headIs ':' opt) then opt else cap) rest
    else (cap, l :: rest)

/-- The admonition directives; returns the directive name and the stripped
inline lead-in text (lines 337-339). -/
def matchAdmon (s : List Char) : Option (List Char × List Char) :=
  if ("..".toList).isPrefixOf s then
    let rest := s.drop 2
    if (rest.takeWhile isSpaceChar).isEmpty then none
    else
      let r := rest.dropWhile isSpaceChar
      ([("hint".toList), ("note".toList), ("warning".toList), ("tip".toList),
        ("important".toList)]).findSome? (fun kw =>
          if (kw ++ [':', ':']).isPrefixOf r then
            some (kw, pyStrip ((r.drop (kw.length + 2)).dropWhile isSpaceChar))
          else none)
  else none

/-- Scan an admonition body, extracting nested testcode blocks separately
(lines 351-419); returns the code blocks, the text lines, and the rest. -/
def admonScan (base : Nat) : Nat → List Line → List (List Char) → List Line →
    List (List Char) × List Line × List Line
  | _, [], cbs, tls => (cbs, tls, [])
  | 0, ls, cbs, tls => (cbs, tls, ls)
  | fuel + 1, l :: rest, cbs, tls =>
    if !(blankL l) && indentOf l < base && !(headIs ' ' l) then (cbs, tls, l :: rest)
    else if matchTestcode (pyStrip l) then
      let rest1 := skipBlanks rest
      let base2 :=
        match rest1 with
        | nl :: _ => if blankL nl then 4 else leadWs nl
        | [] => 4
      let p := collectCode base2 rest1
      let body := dropTrailingBlanks p.1
      admonScan base fuel p.2 (if body.isEmpty then cbs else cbs ++ [joinLines body]) tls
    else if blankL l then admonScan base fuel rest cbs (tls ++ [[]])
    else
      admonScan base fuel rest cbs
        (tls ++ [if base < l.length then l.drop base else pyStrip l])

/-- Join line fragments with single spaces. -/
def joinSpace : List (List Char) → List Char
  | [] => []
  | [c] => c
  | c :: c2 :: cs => c ++ ' ' :: joinSpace (c2 :: cs)

/-- Python str.capitalize on an ASCII word. -/
def pyCapitalize : List Char → List Char
  | [] => []
  | c :: cs => c.toUpper :: cs.map Char.toLower

/-- Emit the extracted admonition code blocks as python fences (441-445). -/
def codeBlocksOut : List (List Char) → List Line
  | [] => []
  | c :: cs => [("```python".toList), c, ("```".toList), []] ++ codeBlocksOut cs

/-- Assemble the admonition output: a bolded label line with the flattened
text, then the extracted code blocks (lines 421-447). -/
def admonOut (kind inline : List Char) (cbs : List (List Char)) (tls0 : List Line) :
    List Line :=
  let tls := dropTrailingBlanks tls0
  let hint :=
    if tls.isEmpty then inline
    else (if inline.isEmpty then [] else inline ++ [' ']) ++
      joinSpace (tls.filter (fun l => !(blankL l)))
  let label :=
    if hint.isEmpty then ("**".toList) ++ pyCapitalize kind ++ ("**".toList)
    else ("**".toList) ++ pyCapitalize kind ++ (":** ".toList) ++ hint
  [[], label, []] ++ codeBlocksOut cbs

/-- A generic unknown directive line: two dots, whitespace, word characters
and a double colon (line 450). -/
def matchUnknownDir (s : List Char) : Bool :=
  ("..".toList).isPrefixOf s &&
    (let rest := s.drop 2
     !(rest.takeWhile isSpaceChar).isEmpty &&
       (let r := rest.dropWhile isSpaceChar
        let run := r.takeWhile isWordChar
        !run.isEmpty && ([':', ':']).isPrefixOf (r.drop run.length)))

/-- The dispatcher branches that need no lookahead: code-block directives,
literal blocks, figures, admonitions, unknown directives, plain lines. -/
def rstStepMain (result : List Line) (l : Line) (stripped : List Char) (indent : Nat)
    (rest : List Line) : List Line × List Line :=
  if matchTestcode stripped then
    let rest1 := skipBlanks rest
    let base :=
      match rest1 with
      | nl :: _ => if blankL nl then 4 else leadWs nl
      | [] => 4
    let p := collectCode base rest1
    (popTrailingGuard ("```python".toList) (result ++ [[], ("```python".toList)] ++ p.1)
       ++ [("```".toList), []], p.2)
  else
    match matchCodeBlockDir stripped with
    | some cap =>
      let lang := if cap.isEmpty then ("python".toList) else cap
      let rest1 := skipBlankOpt rest
      let base :=
        match rest1 with
        | nl :: _ => if blankL nl then 4 else leadWs nl
        | [] => 4
      let p := collectCode base rest1
      (dropTrailingBlanks (result ++ [[], ("```".toList) ++ lang] ++ p.1)
         ++ [("```".toList), []], p.2)
    | none =>
      if endsDoubleColon stripped && !(("..".toList).isPrefixOf stripped) then
        let pfx := pyRStrip (stripped.dropLast.dropLast)
        let res1 := if pfx.isEmpty then result else result ++ [pfx ++ [':']]
        let rest1 := skipBlanks rest
        match rest1 with
        | nl :: _ =>
          if ("  ".toList).isPrefixOf nl || headIs '\t' nl then
            let p := collectCode (leadWs nl) rest1
            let body := dropTrailingBlanks p.1
            let content := joinLines body
            let lang := if hasIniPattern content && !(hasPyKeyword content)
                        then ("ini".toList) else ("python".toList)
            (res1 ++ [[], ("```".toList) ++ lang] ++ body ++ [("```".toList), []], p.2)
          else (res1, rest1)
        | [] => (res1, rest1)
      else
        match matchFigure stripped with
        | some img =>
          let p := figureScan [] rest
          (result ++ [[], '!' :: '[' :: p.1 ++ ']' :: '(' :: img ++ [')']] ++
             (if p.1.isEmpty then [] else ['*' :: p.1 ++ ['*']]) ++ [[]], p.2)
        | none =>
          match matchAdmon stripped with
          | some ki =>
            let p := admonScan (indent + 3) (rest.length + 1) rest [] []
            (result ++ admonOut ki.1 ki.2 p.1 p.2.1, p.2.2)
          | none =>
            if matchUnknownDir stripped && !((".. code".toList).isPrefixOf stripped) then
              (result, skipUnknownBody indent rest)
            else (result ++ [rewriteInline l], rest)

/-- One dispatch step of the transpiler on the current line, given the
remaining lines and the output so far; returns the new output and the
remaining lines (the loop body, lines 49-524). -/
def rstStep (result : List Line) (l : Line) (rest : List Line) : List Line × List Line :=
  let stripped := pyStrip l
  let indent := indentOf l
  if matchTestFamily stripped then (result, skipDedent indent rest)
  else if matchHighlight stripped then (result, skipHighlightBody rest)
  else if matchOnlyHtml stripped then (result, skipDedent indent rest)
  else if matchIndex stripped then (result, skipIndented rest)
  else if matchTargetDef stripped then (result, rest)
  else
    match rest with
    | u :: rest2 =>
      if !stripped.isEmpty && !(pyStrip u).isEmpty && isUnderline (pyStrip u) then
        (titleOut result stripped ((pyStrip u).headD ' '), rest2)
      else rstStepMain result l stripped indent rest
    | [] => rstStepMain result l stripped indent rest

/-- The transpiler's fueled dispatch loop; the fuel is instantiated with the
number of lines, which suffices since every step consumes a line. -/
def rstLoop : Nat → List Line → List Line → List Line
  | 0, _, result => result
  | _ + 1, [], result => result
  | fuel + 1, l :: rest, result =>
    let p := rstStep result l rest
    rstLoop fuel p.2 p.1

/-- Collapse runs of blank output lines to one blank line (lines 527-534). -/
def collapseBlanks : Bool → List Line → List Line
  | _, [] => []
  | prevEmpty, l :: rest =>
    if blankL l && prevEmpty then collapseBlanks true rest
    else l :: collapseBlanks (blankL l) rest

/-- Final cleanup: collapse blank runs, then trim both edges (lines 527-540). -/
def cleanupLines (rs : List Line) : List Line :=
  dropTrailingBlanks ((collapseBlanks false rs).dropWhile blankL)

/-- rst_to_markdown on character lists: expand tabs, split, dispatch, clean
up, join. -/
def rstToMarkdownL (s : List Char) : List Char :=
  let lines := splitLines (expand_tabs s)
  joinLines (cleanupLines (rstLoop lines.length lines []))

/-- String-level wrapper for rst_to_markdown. -/
def rst_to_markdown (s : String) : String :=
  String.mk (rstToMarkdownL s.toList)

example : rst_to_markdown "Title\n=====" = "## Title" := by decide

example : rst_to_markdown "*****\nTitle\n*****" = "# Title" := by decide

example :
    rst_to_markdown ".. code-block:: bash\n\n    ls -la\n    pwd\n\n" =
      "```bash\nls -la\npwd\n```" := by decide

example :
    rst_to_markdown "Config::\n\n  [server]\n  host = localhost" =
      "Config:\n\n```ini\n[server]\nhost = localhost\n```" := by decide

example :
    rst_to_markdown "Example::\n\n  def f():\n      pass" =
      "Example:\n\n```python\ndef f():\n    pass\n```" := by decide

example : rst_to_markdown ".. note:: Be careful" = "**Note:** Be careful" := by decide

example :
    rst_to_markdown ".. testsetup::\n\n    import os\n\nText after" = "Text after" := by
  decide

example :
    markdown_to_notebook "Intro text\n\n```python\nprint(1)\n```\n\nMore text" "T" =
      [Cell.markdown ("Intro text".toList), Cell.code ("print(1)".toList),
       Cell.markdown ("More text".toList)] := by decide

example : markdown_to_notebook "" "Demo" = [Cell.markdown ("# Demo".toList)] := by decide

example :
    markdown_to_notebook "```python\nprint(1)" "T" = [Cell.code ("print(1)".toList)] := by
  decide

example :
    markdown_to_notebook "```\nexport PATH=/x\n```" "T" =
      [Cell.markdown (("```text\nexport PATH=/x\n```").toList)] := by decide

example :
    markdown_to_notebook "```\nx = 1\n```" "T" =
      [Cell.markdown (("```text\nx = 1\n```").toList)] := by decide

example :
    markdown_to_notebook "```\nprint(1)\n```" "T" = [Cell.code ("print(1)".toList)] := by
  decide

/-! ### Shared lemmas about stripping and whitespace -/

theorem dropWhile_head_false {p : Char → Bool} :
    ∀ {l : List Char} {c : Char} {cs : List Char}, l.dropWhile p = c :: cs → p c = false := by
  intro l
  induction l with
  | nil => intro c cs h; simp at h
  | cons a as ih =>
    intro c cs h
    rw [List.dropWhile_cons] at h
    split at h
    · exact ih h
    · cases h
      simpa using ‹¬ p _ = true›

theorem pyRStrip_prefix_of (l : Line) : pyRStrip l <+: l := by
  have h : l.reverse.dropWhile isSpaceChar <:+ l.reverse := List.dropWhile_suffix _
  have h2 : (l.reverse.dropWhile isSpaceChar).reverse <+: l.reverse.reverse :=
    List.reverse_prefix.mpr h
  simpa [pyRStrip] using h2

theorem pyLStrip_suffix (l : Line) : pyLStrip l <:+ l := List.dropWhile_suffix _

theorem pyStrip_sublist (l : Line) : List.Sublist (pyStrip l) l :=
  ((pyRStrip_prefix_of (pyLStrip l)).sublist).trans (pyLStrip_suffix l).sublist

/-- pyStrip is empty exactly when every character is whitespace. -/
theorem pyStrip_eq_nil_iff {l : Line} : pyStrip l = [] ↔ ∀ c ∈ l, isSpaceChar c = true := by
  constructor
  · intro h c hc
    have hsplit : l.takeWhile isSpaceChar ++ l.dropWhile isSpaceChar = l :=
      List.takeWhile_append_dropWhile _ _
    rw [← hsplit] at hc
    rcases List.mem_append.mp hc with hc | hc
    · exact List.mem_takeWhile_imp hc
    · have h1 : (pyLStrip l).reverse.dropWhile isSpaceChar = [] := by
        have := congrArg List.reverse h
        simpa [pyStrip, pyRStrip] using this
      have h2 := List.dropWhile_eq_nil_iff.mp h1
      exact h2 c (by simpa [pyLStrip] using hc)
  · intro h
    have h1 : pyLStrip l = [] :=
      List.dropWhile_eq_nil_iff.mpr (fun x hx => h x hx)
    simp [pyStrip, h1, pyRStrip]

theorem pyStrip_ne_nil_of_mem {l : Line} {c : Char} (hc : c ∈ l)
    (hs : isSpaceChar c = false) : pyStrip l ≠ [] := fun h => by
  have ht := pyStrip_eq_nil_iff.mp h c hc
  rw [ht] at hs
  exact Bool.noConfusion hs

theorem pyStrip_head_not_space {l : Line} {c : Char} {cs : List Char}
    (h : pyStrip l = c :: cs) : isSpaceChar c = false := by
  have hp : c :: cs <+: pyLStrip l := h ▸ pyRStrip_prefix_of (pyLStrip l)
  obtain ⟨t, ht⟩ := hp
  have : l.dropWhile isSpaceChar = c :: (cs ++ t) := by
    simpa [pyLStrip] using ht.symm
  exact dropWhile_head_false this

/-- A line with a non-blank strip contains a non-whitespace character. -/
theorem exists_nonspace_of_strip_ne_nil {l : Line} (h : pyStrip l ≠ []) :
    ∃ c ∈ l, isSpaceChar c = false := by
  cases hh : pyStrip l with
  | nil => exact absurd hh h
  | cons c cs =>
    exact ⟨c, (pyStrip_sublist l).subset (hh ▸ List.mem_cons_self c cs),
      pyStrip_head_not_space hh⟩

/-- Stripping an already-stripped non-empty text stays non-empty. -/
theorem pyStrip_idem_ne_nil {l : Line} (h : pyStrip l ≠ []) : pyStrip (pyStrip l) ≠ [] := by
  cases hh : pyStrip l with
  | nil => exact absurd hh h
  | cons c cs =>
    exact pyStrip_ne_nil_of_mem (hh ▸ List.mem_cons_self c cs) (pyStrip_head_not_space hh)

theorem mem_joinBlank_head {c : List Char} {cs : List (List Char)} {x : Char}
    (hx : x ∈ c) : x ∈ joinBlank (c :: cs) := by
  cases cs <;> simp [joinBlank, hx]

theorem isSpaceChar_tick : isSpaceChar tick = false := by decide

theorem not_isEmpty_ne_nil {α : Type} {l : List α} (h : ¬ l.isEmpty = true) : l ≠ [] :=
  fun he => h (by simp [he])

theorem flushProse_ok {cur : List Line} {c : Cell} (hc : c ∈ flushProse cur) :
    pyStrip c.content ≠ [] := by
  simp only [flushProse] at hc
  split at hc
  · simp at hc
  · rw [List.mem_singleton] at hc
    subst hc
    exact pyStrip_idem_ne_nil (not_isEmpty_ne_nil ‹¬ _›)

theorem classifyFence_ok {lang content : List Char} (h : pyStrip content ≠ []) :
    pyStrip (classifyFence lang content).content ≠ [] := by
  simp only [classifyFence, apply_ite Cell.content]
  split_ifs <;> simp only [Cell.content]
  all_goals
    first
      | exact h
      | (apply pyStrip_ne_nil_of_mem (c := tick) _ isSpaceChar_tick; simp)

theorem flushFinal_ok {st : SegState} {c : Cell} (hc : c ∈ flushFinal st) :
    pyStrip c.content ≠ [] := by
  simp only [flushFinal] at hc
  split at hc
  · simp at hc
  · split at hc <;>
    · rw [List.mem_singleton] at hc
      subst hc
      exact pyStrip_idem_ne_nil (not_isEmpty_ne_nil ‹¬ _›)

theorem segLoop_ok :
    ∀ (bs : List Line) (st : SegState),
      (∀ c ∈ st.cells, pyStrip c.content ≠ []) →
      ∀ c ∈ segLoop st bs, pyStrip c.content ≠ [] := by
  intro bs
  induction bs with
  | nil =>
    intro st hst c hc
    simp only [segLoop] at hc
    rcases List.mem_append.mp hc with h | h
    · exact hst c h
    · exact flushFinal_ok h
  | cons l rest ih =>
    intro st hst c hc
    simp only [segLoop] at hc
    split at hc
    · refine ih _ ?_ c hc
      exact fun d hd => hst d hd
    · split at hc
      · refine ih _ ?_ c hc
        exact fun d hd => hst d hd
      · split at hc
        · refine ih _ ?_ c hc
          intro d hd
          rcases List.mem_append.mp hd with h | h
          · exact hst d h
          · exact flushProse_ok h
        · split at hc
          · refine ih _ ?_ c hc
            intro d hd
            rcases List.mem_append.mp hd with h | h
            · exact hst d h
            · by_cases hemp : (pyStrip (joinLines st.current)).isEmpty = true
              · simp [hemp] at h
              · rw [if_neg hemp] at h
                rw [List.mem_singleton] at h
                subst h
                exact classifyFence_ok (pyStrip_idem_ne_nil (not_isEmpty_ne_nil hemp))
          · refine ih _ ?_ c hc
            exact fun d hd => hst d hd

theorem joinBlank_ok {acc : List (List Char)} (hne : acc ≠ [])
    (hok : ∀ a ∈ acc, pyStrip a ≠ []) : pyStrip (joinBlank acc) ≠ [] := by
  cases acc with
  | nil => exact absurd rfl hne
  | cons a rest =>
    obtain ⟨ch, hch, hs⟩ :=
      exists_nonspace_of_strip_ne_nil (hok a (List.mem_cons_self a rest))
    exact pyStrip_ne_nil_of_mem (mem_joinBlank_head hch) hs

theorem combineGo_ok :
    ∀ (cs : List Cell) (acc : List (List Char)),
      (∀ c ∈ cs, pyStrip c.content ≠ []) →
      (∀ a ∈ acc, pyStrip a ≠ []) →
      ∀ c ∈ combineGo cs acc, pyStrip c.content ≠ [] := by
  intro cs
  induction cs with
  | nil =>
    intro acc hcs hacc c hc
    simp only [combineGo] at hc
    by_cases hemp : acc.isEmpty = true
    · simp [hemp] at hc
    · rw [if_neg hemp, List.mem_singleton] at hc
      subst hc
      exact joinBlank_ok (not_isEmpty_ne_nil hemp) hacc
  | cons hd rest ih =>
    intro acc hcs hacc c hc
    cases hd with
    | markdown m =>
      simp only [combineGo] at hc
      refine ih _ (fun d hd => hcs d (List.mem_cons_of_mem _ hd)) ?_ c hc
      intro a ha
      rcases List.mem_append.mp ha with h | h
      · exact hacc a h
      · rw [List.mem_singleton] at h
        subst h
        exact hcs (Cell.markdown a) (List.mem_cons_self _ _)
    | code m =>
      simp only [combineGo] at hc
      rcases List.mem_append.mp hc with h | h
      · by_cases hemp : acc.isEmpty = true
        · simp [hemp] at h
        · rw [if_neg hemp, List.mem_singleton] at h
          subst h
          exact joinBlank_ok (not_isEmpty_ne_nil hemp) hacc
      · rcases List.mem_cons.mp h with h | h
        · subst h
          exact hcs (Cell.code m) (List.mem_cons_self _ _)
        · exact ih [] (fun d hd => hcs d (List.mem_cons_of_mem _ hd)) (by simp) c h

theorem segment_ok (doc : List Line) (title : List Char) :
    ∀ c ∈ segment doc title, pyStrip c.content ≠ [] := by
  intro c hc
  simp only [segment] at hc
  split at hc
  · rw [List.mem_singleton] at hc
    subst hc
    apply pyStrip_ne_nil_of_mem (c := '#') _ (by decide)
    simp only [fallbackCell, Cell.content]
    split
    · decide
    · exact List.mem_cons_self _ _
  · exact combineGo_ok _ [] (segLoop_ok doc initSeg (by simp [initSeg])) (by simp) c hc

theorem combineGo_chain :
    ∀ (cs : List Cell) (acc : List (List Char)),
      List.Chain' (fun a b => a.isMd = false ∨ b.isMd = false) (combineGo cs acc) := by
  intro cs
  induction cs with
  | nil =>
    intro acc
    simp only [combineGo]
    split
    · exact List.chain'_nil
    · exact List.chain'_singleton _
  | cons hd rest ih =>
    intro acc
    cases hd with
    | markdown m => simpa only [combineGo] using ih (acc ++ [m])
    | code m =>
      simp only [combineGo]
      by_cases hemp : acc.isEmpty = true
      · rw [if_pos hemp, List.nil_append, List.chain'_cons']
        exact ⟨fun y _ => Or.inl rfl, ih []⟩
      · rw [if_neg hemp, List.singleton_append, List.chain'_cons]
        exact ⟨Or.inr rfl, List.chain'_cons'.mpr ⟨fun y _ => Or.inl rfl, ih []⟩⟩

theorem combineGo_filter :
    ∀ (cs : List Cell) (acc : List (List Char)),
      (combineGo cs acc).filter Cell.isCode = cs.filter Cell.isCode := by
  intro cs
  induction cs with
  | nil =>
    intro acc
    simp only [combineGo]
    split
    · simp
    · simp [List.filter, Cell.isCode]
  | cons hd rest ih =>
    intro acc
    cases hd with
    | markdown m =>
      simp only [combineGo]
      rw [ih]
      simp [List.filter, Cell.isCode]
    | code m =>
      simp only [combineGo]
      rw [List.filter_append]
      have h1 : (if acc.isEmpty = true then ([] : List Cell)
          else [Cell.markdown (joinBlank acc)]).filter Cell.isCode = [] := by
        split <;> simp [List.filter, Cell.isCode]
      rw [h1]
      simp [List.filter_cons, Cell.isCode, ih]

/-- Claim C7: segmenting the markdown text of a prose line, a python fence
containing print(1), and a trailing prose line yields exactly the three cells
prose, code, prose; in the final cell sequence adjacent prose cells are merged
into one (joined by a blank-line separator) while code cells are never merged
(the code cells pass through combining unchanged, in order). -/
theorem claim_C7 :
    markdown_to_notebook "Intro text\n\n```python\nprint(1)\n```\n\nMore text" "T" =
      [Cell.markdown ("Intro text".toList), Cell.code ("print(1)".toList),
       Cell.markdown ("More text".toList)] ∧
    combineCells [Cell.markdown ("A".toList), Cell.markdown ("B".toList),
        Cell.code ("C".toList), Cell.code ("D".toList)] =
      [Cell.markdown ("A\n\nB".toList), Cell.code ("C".toList), Cell.code ("D".toList)] ∧
    (∀ cells : List Cell,
      List.Chain' (fun a b => a.isMd = false ∨ b.isMd = false) (combineCells cells)) ∧
    (∀ cells : List Cell,
      (combineCells cells).filter Cell.isCode = cells.filter Cell.isCode) :=
  ⟨by decide, by decide, fun cells => combineGo_chain cells [],
    fun cells => combineGo_filter cells []⟩

/-- Claim C8: segmenting empty markdown with fallback title Demo yields the
single prose cell with heading "# Demo"; in general the notebook always has at
least one cell, and an empty combined cell sequence is replaced by exactly the
one title-derived fallback cell. -/
theorem claim_C8 :
    markdown_to_notebook "" "Demo" = [Cell.markdown ("# Demo".toList)] ∧
    (∀ (md title : String), 0 < (markdown_to_notebook md title).length) ∧
    (∀ (doc : List Line) (title : List Char),
      combineCells (segLoop initSeg doc) = [] → segment doc title = [fallbackCell title]) := by
  refine ⟨by decide, ?_, ?_⟩
  · intro md title
    simp only [markdown_to_notebook, segment]
    split
    · simp
    · have := not_isEmpty_ne_nil ‹¬ _›
      exact List.length_pos.mpr this
  · intro doc title h
    simp [segment, h]

/-- Claim C8 witness: the general fallback branch applied at the concrete
one-blank-line document. -/
theorem claim_C8_witness :
    segment [([] : Line)] ("Demo".toList) = [fallbackCell ("Demo".toList)] :=
  claim_C8.2.2 [([] : Line)] ("Demo".toList) (by decide)

/-- Claim C10: a properly closed fence with a whitespace-only body produces no
cell (the surrounding prose merges across it), and in general every cell of a
segmented notebook has content that is non-empty after stripping. -/
theorem claim_C10 :
    markdown_to_notebook "A\n\n```python\n   \n```\n\nB" "T" =
      [Cell.markdown ("A\n\nB".toList)] ∧
    (∀ (doc : List Line) (title : List Char), ∀ c ∈ segment doc title,
      pyStrip c.content ≠ []) :=
  ⟨by decide, fun doc title c hc => segment_ok doc title c hc⟩

/-- Claim C10 witness: the invariant evaluated on a concrete segmentation. -/
theorem claim_C10_witness :
    pyStrip (Cell.markdown ("A\n\nB".toList)).content ≠ [] :=
  claim_C10.2 (splitLines ("A\n\n```python\n   \n```\n\nB".toList)) ("T".toList)
    (Cell.markdown ("A\n\nB".toList)) (by decide)

theorem word_not_space {c : Char} (h : isWordChar c = true) : isSpaceChar c = false := by
  by_contra hs
  rw [Bool.not_eq_false] at hs
  simp only [isSpaceChar, Bool.or_eq_true, decide_eq_true_eq] at hs
  rcases hs with ((((h1 | h1) | h1) | h1) | h1) | h1 <;> subst h1 <;>
    exact absurd h (by decide)

theorem word_not_tick {c : Char} (h : isWordChar c = true) : (decide (c = tick)) = false := by
  by_contra hs
  rw [Bool.not_eq_false, decide_eq_true_eq] at hs
  subst hs
  exact absurd h (by decide)

/-- A fence-open line made of three backticks and a word tag matches the
fence-open pattern with that tag. -/
theorem fence_open_line (tag : List Char) (hw : tag.all isWordChar = true) :
    matchFenceOpen (tick :: tick :: tick :: tag) = some (tick :: tick :: [tick], tag) := by
  have htw : tag.takeWhile (fun c => decide (c = tick)) = [] := by
    cases tag with
    | nil => rfl
    | cons c cs =>
      rw [List.takeWhile_cons_of_neg]
      simp [word_not_tick (by simpa using (List.all_eq_true.mp hw c (List.mem_cons_self c cs)))]
  have hdw : tag.dropWhile (fun c => decide (c = tick)) = tag := by
    cases tag with
    | nil => rfl
    | cons c cs =>
      rw [List.dropWhile_cons_of_neg]
      simp [word_not_tick (by simpa using (List.all_eq_true.mp hw c (List.mem_cons_self c cs)))]
  have hds : tag.dropWhile isSpaceChar = tag := by
    cases tag with
    | nil => rfl
    | cons c cs =>
      rw [List.dropWhile_cons_of_neg]
      simp [word_not_space (by simpa using (List.all_eq_true.mp hw c (List.mem_cons_self c cs)))]
  have htk : tag.takeWhile isWordChar = tag :=
    List.takeWhile_eq_self_iff.mpr (fun c hc => by simpa using List.all_eq_true.mp hw c hc)
  have hdk : tag.dropWhile isWordChar = [] :=
    List.dropWhile_eq_nil_iff.mpr (fun c hc => by simpa using List.all_eq_true.mp hw c hc)
  simp only [matchFenceOpen]
  rw [List.takeWhile_cons_of_pos (by simp), List.takeWhile_cons_of_pos (by simp),
    List.takeWhile_cons_of_pos (by simp), htw]
  rw [List.dropWhile_cons_of_pos (by simp), List.dropWhile_cons_of_pos (by simp),
    List.dropWhile_cons_of_pos (by simp), hdw, hds]
  simp [htk, hdk]

theorem quoteFenceLead_ticks (rest : List Char) :
    quoteFenceLead (tick :: rest) = false := by
  have hne : ('>' == tick) = false := by decide
  simp [quoteFenceLead, List.isPrefixOf, hne]

/-- While inside a fence, body lines that neither carry the quoted-fence
marker nor strip to the fence token are simply accumulated. -/
theorem segLoop_accum :
    ∀ (bs : List Line) (st : SegState) (tl : List Line),
      st.inCode = true → st.quoteCode = false →
      (∀ l ∈ bs, quoteFenceLead l = false ∧ pyStrip l ≠ st.fencePat) →
      segLoop st (bs ++ tl) = segLoop { st with current := st.current ++ bs } tl := by
  intro bs
  induction bs with
  | nil =>
    intro st tl _ _ _
    simp
  | cons l rest ih =>
    intro st tl h1 h2 h3
    obtain ⟨hq, hf⟩ := h3 l (List.mem_cons_self _ _)
    rw [List.cons_append]
    simp only [segLoop]
    rw [if_neg (by simp [hq]), if_neg (by simp [h2]), if_neg (by simp [h1]),
      if_neg (by simp [h1, hf])]
    rw [ih { st with current := st.current ++ [l] } tl h1 h2
      (fun d hd => h3 d (List.mem_cons_of_mem _ hd))]
    congr 1
    simp

theorem ne_nil_not_isEmpty {α : Type} {l : List α} (h : l ≠ []) : ¬ l.isEmpty = true :=
  fun he => by
    cases l with
    | nil => exact h rfl
    | cons a as => simp [List.isEmpty] at he

/-- Opening an untagged-or-tagged fence from the initial state and then
feeding fence-neutral body lines accumulates exactly those lines. -/
theorem segLoop_open_accum (tag : List Char) (bs : List Line) (tl : List Line)
    (hw : tag.all isWordChar = true)
    (hb : ∀ l ∈ bs, quoteFenceLead l = false ∧ pyStrip l ≠ (tick :: tick :: [tick])) :
    segLoop initSeg ((((tick :: tick :: [tick]) ++ tag) :: bs) ++ tl) =
      segLoop { cells := [], current := bs, inCode := true, codeLang := tag,
                fencePat := tick :: tick :: [tick], inQuote := false, quoteCode := false } tl := by
  rw [List.cons_append]
  simp only [List.cons_append, List.nil_append, segLoop]
  rw [if_neg (by simp [quoteFenceLead_ticks]), if_neg (by simp [initSeg]),
    if_pos (by simp [fence_open_line tag hw, initSeg])]
  have hfp : flushProse ([] : List Line) = [] := by decide
  simp only [fence_open_line tag hw, Option.getD_some, initSeg, hfp, List.append_nil]
  rw [segLoop_accum bs _ tl rfl rfl hb]
  congr 1

/-- Claim C1 (amended): at end of input, the content of an open (unterminated)
fence is flushed as a code cell when the declared language tag is python or
py, and as a plain prose cell (the raw collected content, not re-fenced)
otherwise. -/
theorem claim_C1 (tag : List Char) (bs : List Line) (title : List Char)
    (hw : tag.all isWordChar = true)
    (hb : ∀ l ∈ bs, quoteFenceLead l = false ∧ pyStrip l ≠ (tick :: tick :: [tick]))
    (hne : pyStrip (joinLines bs) ≠ []) :
    segment (((tick :: tick :: [tick]) ++ tag) :: bs) title =
      [if tag = ("python".toList) ∨ tag = ("py".toList)
       then Cell.code (pyStrip (joinLines bs))
       else Cell.markdown (pyStrip (joinLines bs))] := by
  have hopen := segLoop_open_accum tag bs [] hw hb
  rw [List.append_nil] at hopen
  have hff :
      flushFinal { cells := [], current := bs, inCode := true, codeLang := tag,
                   fencePat := tick :: tick :: [tick], inQuote := false,
                   quoteCode := false } =
        if tag = ("python".toList) ∨ tag = ("py".toList)
        then [Cell.code (pyStrip (joinLines bs))]
        else [Cell.markdown (pyStrip (joinLines bs))] := by
    simp only [flushFinal]
    rw [if_neg (ne_nil_not_isEmpty hne)]
    by_cases hpy : tag = ("python".toList) ∨ tag = ("py".toList)
    · have hbeq : (tag == ("python".toList) || tag == ("py".toList)) = true := by
        rcases hpy with h | h <;> simp [h]
      simp only [if_pos hpy]
      have hcond : (true && (tag == ("python".toList) || tag == ("py".toList))) = true := by
        rw [Bool.true_and]
        exact hbeq
      rw [if_pos hcond]
    · have hbeq : (tag == ("python".toList) || tag == ("py".toList)) = false := by
        push_neg at hpy
        rw [Bool.or_eq_false_iff]
        exact ⟨beq_eq_false_iff_ne.mpr hpy.1, beq_eq_false_iff_ne.mpr hpy.2⟩
      simp only [if_neg hpy]
      have hcond : ¬ ((true && (tag == ("python".toList) || tag == ("py".toList))) = true) := by
        rw [Bool.true_and, hbeq]
        exact Bool.false_ne_true
      rw [if_neg hcond]
  have hcells :
      combineCells (segLoop initSeg (((tick :: tick :: [tick]) ++ tag) :: bs)) =
        [if tag = ("python".toList) ∨ tag = ("py".toList)
         then Cell.code (pyStrip (joinLines bs))
         else Cell.markdown (pyStrip (joinLines bs))] := by
    rw [hopen]
    simp only [segLoop, List.nil_append]
    rw [hff]
    by_cases hpy : tag = ("python".toList) ∨ tag = ("py".toList)
    · simp only [if_pos hpy]
      simp [combineCells, combineGo]
    · simp only [if_neg hpy]
      simp [combineCells, combineGo, joinBlank]
  simp only [segment]
  rw [hcells]
  simp

/-- Claim C1 witness: the amended theorem at the unterminated python fence
over the body print(1). -/
theorem claim_C1_witness :
    segment (((tick :: tick :: [tick]) ++ ("python".toList)) :: [("print(1)".toList)])
        ("T".toList) =
      [if ("python".toList) = ("python".toList) ∨ ("python".toList) = ("py".toList)
       then Cell.code (pyStrip (joinLines [("print(1)".toList)]))
       else Cell.markdown (pyStrip (joinLines [("print(1)".toList)]))] :=
  claim_C1 ("python".toList) [("print(1)".toList)] ("T".toList) (by decide) (by decide)
    (by decide)

/-- Claim C1 counterexample: an unterminated fence whose declared language is
python is flushed as a code cell, not as a prose cell as the claim states. -/
theorem claim_C1_counterexample :
    markdown_to_notebook "```python\nprint(1)" "T" = [Cell.code ("print(1)".toList)] := by
  decide

/-- Untagged fence-close classification is decided exactly by the non-Python
signature search. -/
theorem classifyFence_untagged (content : List Char) :
    classifyFence [] content =
      if hasNonPythonPattern content = true
      then Cell.markdown ((tick :: tick :: [tick]) ++ ("text".toList) ++ '\n' ::
        content ++ '\n' :: tick :: tick :: [tick])
      else Cell.code content := by
  have h1 : isPyTag ([] : List Char) = true := by decide
  by_cases h : hasNonPythonPattern content = true <;>
    simp [classifyFence, h1, h]

/-- Claim C2 (amended): a closed untagged fence is classified as an
executable code cell exactly when the body matches none of the fixed
non-code signatures, where all signatures are matched case-insensitively (so
the assignment signature matches any line starting with letters or
underscores, optional whitespace and an equals sign, not only ALL-CAPS
lines); a matching body is downgraded to a prose cell re-fenced with the
tag text. -/
theorem claim_C2 (bs : List Line) (title : List Char)
    (hb : ∀ l ∈ bs, quoteFenceLead l = false ∧ pyStrip l ≠ (tick :: tick :: [tick]))
    (hne : pyStrip (joinLines bs) ≠ []) :
    segment (((tick :: tick :: [tick]) :: bs) ++ [tick :: tick :: [tick]]) title =
      [if hasNonPythonPattern (pyStrip (joinLines bs)) = true
       then Cell.markdown ((tick :: tick :: [tick]) ++ ("text".toList) ++ '\n' ::
         pyStrip (joinLines bs) ++ '\n' :: tick :: tick :: [tick])
       else Cell.code (pyStrip (joinLines bs))] := by
  have hopen := segLoop_open_accum [] bs [tick :: tick :: [tick]] (by decide) hb
  rw [List.append_nil] at hopen
  have hstrip3 : pyStrip (tick :: tick :: [tick]) = tick :: tick :: [tick] := by decide
  have hclose :
      segLoop { cells := [], current := bs, inCode := true, codeLang := [],
                fencePat := tick :: tick :: [tick], inQuote := false, quoteCode := false }
        [tick :: tick :: [tick]] =
      [classifyFence [] (pyStrip (joinLines bs))] := by
    simp only [segLoop]
    rw [if_neg (by simp [quoteFenceLead_ticks]), if_neg (by simp), if_neg (by simp),
      if_pos (by simp [hstrip3])]
    rw [if_neg (ne_nil_not_isEmpty hne)]
    simp only [segLoop, List.nil_append]
    simp [flushFinal, joinLines, pyStrip, pyLStrip, pyRStrip]
  simp only [segment]
  rw [hopen, hclose, classifyFence_untagged]
  by_cases h : hasNonPythonPattern (pyStrip (joinLines bs)) = true
  · simp [h, combineCells, combineGo, joinBlank]
  · simp [h, combineCells, combineGo]

/-- Claim C2 witness: the amended theorem at the untagged fence over the body
export PATH=/x, which the case-insensitive signatures downgrade to prose. -/
theorem claim_C2_witness :
    segment (((tick :: tick :: [tick]) :: [("export PATH=/x".toList)]) ++
        [tick :: tick :: [tick]]) ("T".toList) =
      [if hasNonPythonPattern (pyStrip (joinLines [("export PATH=/x".toList)])) = true
       then Cell.markdown ((tick :: tick :: [tick]) ++ ("text".toList) ++ '\n' ::
         pyStrip (joinLines [("export PATH=/x".toList)]) ++ '\n' :: tick :: tick :: [tick])
       else Cell.code (pyStrip (joinLines [("export PATH=/x".toList)]))] :=
  claim_C2 [("export PATH=/x".toList)] ("T".toList) (by decide) (by decide)

/-- Claim C2 counterexample: the untagged fence body x = 1 matches none of
the signatures as the claim words them (it is not an ALL-CAPS assignment),
yet the segmenter downgrades it to a prose cell because the assignment
signature is matched case-insensitively. -/
theorem claim_C2_counterexample :
    markdown_to_notebook "```\nx = 1\n```" "T" =
      [Cell.markdown (("```text\nx = 1\n```").toList)] := by
  decide

/-! ### Lemmas for the inline rewriter -/

theorem subScanF_id {m : List Char → Option (List Char × List Char)} :
    ∀ (fuel : Nat) (l : List Char), (∀ i, m (l.drop i) = none) → subScanF m fuel l = l := by
  intro fuel
  induction fuel with
  | zero => intro l _; cases l <;> rfl
  | succ n ih =>
    intro l h
    cases l with
    | nil => rfl
    | cons c rest =>
      have h0 : m (c :: rest) = none := by simpa using h 0
      simp only [subScanF, h0]
      rw [ih rest (fun i => by simpa [List.drop_succ_cons] using h (i + 1))]

theorem applySub_id {m : List Char → Option (List Char × List Char)} (l : List Char)
    (h : ∀ i, m (l.drop i) = none) : applySub m l = l :=
  subScanF_id l.length l h

theorem mem_of_isPrefixOf {p s : List Char} (h : p.isPrefixOf s = true) {c : Char}
    (hc : c ∈ p) : c ∈ s := (List.isPrefixOf_iff_prefix.mp h).subset hc

theorem tick_notin_drop {l : List Char} (h : tick ∉ l) (i : Nat) : tick ∉ l.drop i :=
  fun hc => h (List.mem_of_mem_drop hc)

theorem tryRole_none {role pre post : List Char} {s : List Char} (h : tick ∉ s) :
    tryRole role pre post s = none := by
  have hp : (':' :: role ++ [':', tick]).isPrefixOf s = false := by
    by_contra hc
    rw [Bool.not_eq_false] at hc
    exact h (mem_of_isPrefixOf hc (by simp))
  unfold tryRole
  rw [hp]
  simp

theorem tryRoleTgt_none {role pre post : List Char} {s : List Char} (h : tick ∉ s) :
    tryRoleTgt role pre post s = none := by
  have hp : (':' :: role ++ [':', tick]).isPrefixOf s = false := by
    by_contra hc
    rw [Bool.not_eq_false] at hc
    exact h (mem_of_isPrefixOf hc (by simp))
  unfold tryRoleTgt
  rw [hp]
  simp

theorem tryRoleStar_none {role : List Char} {s : List Char} (h : tick ∉ s) :
    tryRoleStar role s = none := by
  have hp : (':' :: role ++ [':', tick]).isPrefixOf s = false := by
    by_contra hc
    rw [Bool.not_eq_false] at hc
    exact h (mem_of_isPrefixOf hc (by simp))
  unfold tryRoleStar
  rw [hp]
  simp

theorem trySourceRole_none {s : List Char} (h : tick ∉ s) : trySourceRole s = none := by
  have hp : (':' :: ("source".toList) ++ [':', tick]).isPrefixOf s = false := by
    by_contra hc
    rw [Bool.not_eq_false] at hc
    exact h (mem_of_isPrefixOf hc (by simp))
  unfold trySourceRole
  rw [hp]
  simp

theorem tryDouble_none_no_tick {s : List Char} (h : tick ∉ s) : tryDouble s = none := by
  cases s with
  | nil => rfl
  | cons c1 rest =>
    cases rest with
    | nil => rfl
    | cons c2 t =>
      have h1 : ¬ c1 = tick := fun he => h (by simp [he])
      simp [tryDouble, h1]

theorem tryLink_none {s : List Char} (h : tick ∉ s) : tryLink s = none := by
  cases s with
  | nil => rfl
  | cons c0 t =>
    have h1 : ¬ c0 = tick := fun he => h (by simp [he])
    simp [tryLink, h1]

theorem applySub_tryRole_id {role pre post : List Char} {l : List Char} (h : tick ∉ l) :
    applySub (tryRole role pre post) l = l :=
  applySub_id l (fun i => tryRole_none (tick_notin_drop h i))

theorem applySub_tryRoleTgt_id {role pre post : List Char} {l : List Char} (h : tick ∉ l) :
    applySub (tryRoleTgt role pre post) l = l :=
  applySub_id l (fun i => tryRoleTgt_none (tick_notin_drop h i))

theorem applySub_tryRoleStar_id {role : List Char} {l : List Char} (h : tick ∉ l) :
    applySub (tryRoleStar role) l = l :=
  applySub_id l (fun i => tryRoleStar_none (tick_notin_drop h i))

theorem applySub_trySourceRole_id {l : List Char} (h : tick ∉ l) :
    applySub trySourceRole l = l :=
  applySub_id l (fun i => trySourceRole_none (tick_notin_drop h i))

theorem applySub_tryDouble_id {l : List Char} (h : tick ∉ l) :
    applySub tryDouble l = l :=
  applySub_id l (fun i => tryDouble_none_no_tick (tick_notin_drop h i))

theorem applySub_tryLink_id {l : List Char} (h : tick ∉ l) :
    applySub tryLink l = l :=
  applySub_id l (fun i => tryLink_none (tick_notin_drop h i))

/-- Every substitution pattern of the rewriter needs a backtick, so a line
without one is a fixpoint of the whole pass. -/
theorem rewriteInline_no_tick {l : List Char} (h : tick ∉ l) : rewriteInline l = l := by
  simp only [rewriteInline]
  rw [applySub_tryRole_id h, applySub_tryRole_id h, applySub_tryRole_id h,
    applySub_tryRole_id h, applySub_tryRole_id h, applySub_tryRole_id h,
    applySub_tryRole_id h, applySub_tryRole_id h, applySub_tryRoleTgt_id h,
    applySub_tryRole_id h, applySub_tryRoleTgt_id h, applySub_tryRole_id h,
    applySub_tryRoleTgt_id h, applySub_tryRole_id h, applySub_tryRoleTgt_id h,
    applySub_tryRole_id h, applySub_tryRole_id h, applySub_tryRole_id h,
    applySub_tryRole_id h, applySub_tryRoleStar_id h, applySub_tryRoleStar_id h,
    applySub_trySourceRole_id h, applySub_tryDouble_id h, applySub_tryLink_id h]

theorem chain_no_adj_drop {l : List Char}
    (hch : List.Chain' (fun a b => ¬(a = tick ∧ b = tick)) l) (i : Nat) :
    List.Chain' (fun a b => ¬(a = tick ∧ b = tick)) (l.drop i) := by
  induction i generalizing l with
  | zero => simpa using hch
  | succ n ih =>
    cases l with
    | nil => simp
    | cons c rest => simpa [List.drop_succ_cons] using ih hch.tail

theorem tryDouble_none_chain {s : List Char}
    (h : List.Chain' (fun a b => ¬(a = tick ∧ b = tick)) s) : tryDouble s = none := by
  cases s with
  | nil => rfl
  | cons c1 rest =>
    cases rest with
    | nil => rfl
    | cons c2 t =>
      have hr : ¬(c1 = tick ∧ c2 = tick) := (List.chain'_cons.mp h).1
      by_cases h1 : c1 = tick
      · have h2 : ¬ c2 = tick := fun hc => hr ⟨h1, hc⟩
        simp [tryDouble, h2]
      · simp [tryDouble, h1]

/-- Claim C6 (amended): the full substitution sequence is idempotent on every
line without a backtick character (each pattern requires a backtick, so such
lines are fixpoints), and single-backtick code spans are not re-matched by
the double-backtick rule: that rule leaves unchanged any line in which no
two backticks are adjacent.  Full idempotence of the pass fails in general
(see the counterexample). -/
theorem claim_C6 :
    (∀ l : List Char, tick ∉ l → rewriteInline l = l) ∧
    (∀ l : List Char, tick ∉ l → rewriteInline (rewriteInline l) = rewriteInline l) ∧
    (∀ l : List Char, List.Chain' (fun a b => ¬(a = tick ∧ b = tick)) l →
      applySub tryDouble l = l) := by
  refine ⟨fun l h => rewriteInline_no_tick h, fun l h => ?_,
    fun l h => applySub_id l (fun i => tryDouble_none_chain (chain_no_adj_drop h i))⟩
  rw [rewriteInline_no_tick h, rewriteInline_no_tick h]

/-- Claim C6 witness: the amended theorem at a backtick-free line and at a
line holding two single-backtick code spans. -/
theorem claim_C6_witness :
    rewriteInline ("plain text, x = 1.".toList) = ("plain text, x = 1.".toList) ∧
    applySub tryDouble (("`a` and `b`").toList) = (("`a` and `b`").toList) :=
  ⟨claim_C6.1 _ (by decide), claim_C6.2.2 _ (by
    show List.Chain' _
      (tick :: 'a' :: tick :: ' ' :: 'a' :: 'n' :: 'd' :: ' ' :: tick :: 'b' :: [tick])
    simp only [List.chain'_cons, List.chain'_singleton]
    decide)⟩

/-- Claim C6 counterexample: the rewriter is not idempotent; on this line the
double-backtick rule manufactures a role match that only the second pass
rewrites, so running the pass twice differs from running it once. -/
theorem claim_C6_counterexample :
    rewriteInline (rewriteInline (("``:file:``a``").toList)) ≠
      rewriteInline (("``:file:``a``").toList) := by decide

/-! ### Termination of the transpiler dispatch loop -/

theorem skipBlanks_suffix (ls : List Line) : skipBlanks ls <:+ ls := List.dropWhile_suffix _

theorem skipBlankOpt_suffix (ls : List Line) : skipBlankOpt ls <:+ ls := List.dropWhile_suffix _

theorem skipDedent_suffix (base : Nat) (ls : List Line) : skipDedent base ls <:+ ls :=
  List.dropWhile_suffix _

theorem skipIndented_suffix (ls : List Line) : skipIndented ls <:+ ls := List.dropWhile_suffix _

theorem skipUnknownBody_suffix (base : Nat) (ls : List Line) : skipUnknownBody base ls <:+ ls :=
  List.dropWhile_suffix _

theorem collectCode_snd_suffix (base : Nat) : ∀ ls : List Line, (collectCode base ls).2 <:+ ls := by
  intro ls
  induction ls with
  | nil => exact List.suffix_refl _
  | cons l rest ih =>
    simp only [collectCode]
    split
    · exact List.suffix_refl _
    · exact ih.trans (List.suffix_cons l rest)

theorem skipHighlightBody_suffix : ∀ ls : List Line, skipHighlightBody ls <:+ ls := by
  intro ls
  induction ls with
  | nil => exact List.suffix_refl _
  | cons l rest ih =>
    simp only [skipHighlightBody]
    split
    · split
      · exact List.suffix_refl _
      · exact ih.trans (List.suffix_cons l rest)
    · exact List.suffix_refl _

theorem figureScan_snd_suffix : ∀ (ls : List Line) (cap : List Char),
    (figureScan cap ls).2 <:+ ls := by
  intro ls
  induction ls with
  | nil => intro cap; exact List.suffix_refl _
  | cons l rest ih =>
    intro cap
    simp only [figureScan]
    split
    · exact (ih _).trans (List.suffix_cons l rest)
    · exact List.suffix_refl _

theorem admonScan_snd_suffix (base : Nat) :
    ∀ (fuel : Nat) (ls : List Line) (cbs : List (List Char)) (tls : List Line),
      (admonScan base fuel ls cbs tls).2.2 <:+ ls := by
  intro fuel
  induction fuel with
  | zero =>
    intro ls cbs tls
    cases ls with
    | nil => exact List.suffix_refl _
    | cons l rest => exact List.suffix_refl _
  | succ n ih =>
    intro ls cbs tls
    cases ls with
    | nil => exact List.suffix_refl _
    | cons l rest =>
      simp only [admonScan]
      split
      · exact List.suffix_refl _
      · split
        · refine (ih _ _ _).trans ?_
          refine ((collectCode_snd_suffix _ _).trans ?_)
          exact (List.dropWhile_suffix _).trans (List.suffix_cons l rest)
        · split
          · exact (ih _ _ _).trans (List.suffix_cons l rest)
          · exact (ih _ _ _).trans (List.suffix_cons l rest)

theorem rstStepMain_snd_suffix (result : List Line) (l : Line) (stripped : List Char)
    (indent : Nat) (rest : List Line) :
    (rstStepMain result l stripped indent rest).2 <:+ rest := by
  simp only [rstStepMain]
  split
  · exact (collectCode_snd_suffix _ _).trans (List.dropWhile_suffix _)
  · split
    · exact (collectCode_snd_suffix _ _).trans (List.dropWhile_suffix _)
    · split
      · split
        · split
          · exact (collectCode_snd_suffix _ _).trans (skipBlanks_suffix rest)
          · exact skipBlanks_suffix rest
        · exact skipBlanks_suffix rest
      · split
        · exact figureScan_snd_suffix _ _
        · split
          · exact admonScan_snd_suffix _ _ _ _ _
          · split
            · exact List.dropWhile_suffix _
            · exact List.suffix_refl _

theorem rstStep_snd_suffix (result : List Line) (l : Line) (rest : List Line) :
    (rstStep result l rest).2 <:+ rest := by
  simp only [rstStep]
  split
  · exact List.dropWhile_suffix _
  · split
    · exact skipHighlightBody_suffix _
    · split
      · exact List.dropWhile_suffix _
      · split
        · exact List.dropWhile_suffix _
        · split
          · exact List.suffix_refl _
          · split
            · split
              · rename_i u rest2 _
                exact List.suffix_cons u rest2
              · exact rstStepMain_snd_suffix _ _ _ _ _
            · exact rstStepMain_snd_suffix _ _ _ _ _

theorem rstLoop_fuel :
    ∀ (f1 : Nat) (lines : List Line) (f2 : Nat) (result : List Line),
      lines.length ≤ f1 → lines.length ≤ f2 →
      rstLoop f1 lines result = rstLoop f2 lines result := by
  intro f1
  induction f1 with
  | zero =>
    intro lines f2 result h1 _
    have hl : lines = [] := List.length_eq_zero.mp (Nat.le_zero.mp h1)
    subst hl
    cases f2 <;> rfl
  | succ n ih =>
    intro lines f2 result h1 h2
    cases lines with
    | nil => cases f2 <;> rfl
    | cons l rest =>
      cases f2 with
      | zero => exact absurd h2 (by simp)
      | succ m =>
        simp only [rstLoop]
        have hle : ((rstStep result l rest).2).length ≤ rest.length :=
          (rstStep_snd_suffix result l rest).length_le
        refine ih _ m _ ?_ ?_
        · exact le_trans hle (Nat.le_of_succ_le_succ h1)
        · exact le_trans hle (Nat.le_of_succ_le_succ h2)

/-- Claim C9: every dispatch step of the transpiler consumes at least the
current line (the remaining lines form a suffix of the old lookahead, so the
cursor strictly advances and never revisits a position), and therefore the
fueled loop is independent of any sufficient fuel: the transpiler terminates
on every finite document. -/
theorem claim_C9 :
    (∀ (result : List Line) (l : Line) (rest : List Line),
      (rstStep result l rest).2 <:+ rest ∧
        ((rstStep result l rest).2).length < (l :: rest).length) ∧
    (∀ (fuel : Nat) (lines result : List Line), lines.length ≤ fuel →
      rstLoop fuel lines result = rstLoop lines.length lines result) := by
  constructor
  · intro result l rest
    refine ⟨rstStep_snd_suffix result l rest, ?_⟩
    exact Nat.lt_succ_of_le (rstStep_snd_suffix result l rest).length_le
  · intro fuel lines result h
    exact rstLoop_fuel fuel lines lines.length result h le_rfl

/-- Claim C9 witness: fuel independence evaluated on a concrete document. -/
theorem claim_C9_witness :
    rstLoop 9 [("Title".toList), ("=====".toList)] [] =
      rstLoop ([("Title".toList), ("=====".toList)] : List Line).length
        [("Title".toList), ("=====".toList)] [] :=
  claim_C9.2 9 [("Title".toList), ("=====".toList)] [] (by decide)

/-! ### The title handler -/

theorem isEmpty_false_of_ne_nil {α : Type} {l : List α} (h : l ≠ []) : l.isEmpty = false := by
  cases l with
  | nil => exact absurd rfl h
  | cons a as => rfl

/-- Claim C3: when the dispatcher reaches the title branch (none of the
skip-directive matchers fired), a non-blank line whose stripped lookahead is
at least three repetitions of one character from the underline set is
replaced by an ATX heading between blank lines, with the level given by the
fixed character map; both the title and the underline are consumed; a
matching just-emitted overline is retracted and forces level 1 (titleOut
performs exactly these steps).  Concretely, a title underlined with equals
signs becomes "## Title", and a star-overlined star-underlined title becomes
"# Title" with the overline gone. -/
theorem claim_C3 :
    (∀ (result : List Line) (l u : Line) (rest : List Line),
      matchTestFamily (pyStrip l) = false → matchHighlight (pyStrip l) = false →
      matchOnlyHtml (pyStrip l) = false → matchIndex (pyStrip l) = false →
      matchTargetDef (pyStrip l) = false →
      pyStrip l ≠ [] → pyStrip u ≠ [] → isUnderline (pyStrip u) = true →
      rstStep result l (u :: rest) =
        (titleOut result (pyStrip l) ((pyStrip u).headD ' '), rest)) ∧
    rst_to_markdown "Title\n=====" = "## Title" ∧
    rst_to_markdown "*****\nTitle\n*****" = "# Title" := by
  refine ⟨?_, by decide, by decide⟩
  intro result l u rest h1 h2 h3 h4 h5 hl hu hund
  simp only [rstStep]
  rw [if_neg (by simp [h1]), if_neg (by simp [h2]), if_neg (by simp [h3]),
    if_neg (by simp [h4]), if_neg (by simp [h5])]
  rw [if_pos (by simp [isEmpty_false_of_ne_nil hl, isEmpty_false_of_ne_nil hu, hund])]

/-- Claim C3 witness: the title branch at a concrete overlined title. -/
theorem claim_C3_witness :
    rstStep [("*****".toList)] ("Title".toList) [("*****".toList)] =
      (titleOut [("*****".toList)] (pyStrip ("Title".toList))
        ((pyStrip ("*****".toList)).headD ' '), []) :=
  claim_C3.1 [("*****".toList)] ("Title".toList) ("*****".toList) [] (by decide) (by decide)
    (by decide) (by decide) (by decide) (by decide) (by decide) (by decide)

/-! ### The code-block and testcode handlers -/

theorem isEmpty_true_eq_nil {α : Type} {l : List α} (h : l.isEmpty = true) : l = [] := by
  cases l with
  | nil => rfl
  | cons a as => simp [List.isEmpty] at h

/-- The collection loop is exactly a takeWhile of continuing lines, mapped by
base-indentation stripping, with the remainder given by the dropWhile. -/
theorem collectCode_eq (base : Nat) : ∀ ls : List Line,
    collectCode base ls =
      ((ls.takeWhile (fun cl => !(!(blankL cl) && decide (indentOf cl < base)))).map
         (fun cl => if blankL cl then [] else stripBase base cl),
       ls.dropWhile (fun cl => !(!(blankL cl) && decide (indentOf cl < base)))) := by
  intro ls
  induction ls with
  | nil => rfl
  | cons l rest ih =>
    simp only [collectCode]
    split
    · rename_i hcond
      rw [List.takeWhile_cons_of_neg (by simp [hcond]),
        List.dropWhile_cons_of_neg (by simp [hcond])]
      simp
    · rename_i hcond
      have hx : (!(blankL l) && decide (indentOf l < base)) = false := by
        simpa using hcond
      rw [List.takeWhile_cons_of_pos (by simp [hx]),
        List.dropWhile_cons_of_pos (by simp [hx])]
      rw [ih]
      simp

/-- With a non-blank guard line, the guarded pop loop is the plain
trailing-blank drop. -/
theorem popTrailingGuard_eq {g : Line} (hg : blankL g = false) (rs : List Line) :
    popTrailingGuard g rs = dropTrailingBlanks rs := by
  unfold popTrailingGuard dropTrailingBlanks
  congr 2
  funext r
  by_cases hr : (r == g) = true
  · have hrg : r = g := by simpa using hr
    subst hrg
    simp [hg]
  · have hrg : (r == g) = false := by simpa using hr
    simp [hrg]

/-- Dropping trailing blanks stops at a non-blank barrier line. -/
theorem dropTrailingBlanks_append (xs : List Line) {g : Line} (hg : blankL g = false)
    (ys : List Line) :
    dropTrailingBlanks (xs ++ g :: ys) = xs ++ g :: dropTrailingBlanks ys := by
  unfold dropTrailingBlanks
  have hrev : (xs ++ g :: ys).reverse = (ys.reverse ++ [g]) ++ xs.reverse := by
    simp
  rw [hrev]
  have hg1 : List.dropWhile blankL [g] = [g] := by
    rw [List.dropWhile_cons_of_neg (by simp [hg])]
  have hinner : List.dropWhile blankL (ys.reverse ++ [g]) =
      List.dropWhile blankL ys.reverse ++ [g] := by
    rw [List.dropWhile_append]
    split
    · rename_i hemp
      rw [isEmpty_true_eq_nil hemp, hg1, List.nil_append]
    · rfl
  have hne : (List.dropWhile blankL (ys.reverse ++ [g])).isEmpty = false := by
    rw [hinner]
    exact isEmpty_false_of_ne_nil (by simp)
  rw [List.dropWhile_append, hne]
  simp only [Bool.false_eq_true, if_false, hinner]
  simp

theorem blankL_fence (lang : List Char) : blankL (("```".toList) ++ lang) = false := by
  unfold blankL
  exact isEmpty_false_of_ne_nil
    (pyStrip_ne_nil_of_mem (List.mem_append_left _ (by decide)) isSpaceChar_tick)

theorem rstStepMain_codeblock (result : List Line) (l : Line) (stripped : List Char)
    (indent : Nat) (rest : List Line) (cap : List Char)
    (h7 : matchTestcode stripped = false)
    (h8 : matchCodeBlockDir stripped = some cap) :
    rstStepMain result l stripped indent rest =
      (let lang := if cap.isEmpty then ("python".toList) else cap
       let rest1 := skipBlankOpt rest
       let base := match rest1 with
         | nl :: _ => if blankL nl then 4 else leadWs nl
         | [] => 4
       (result ++ [[], ("```".toList) ++ lang] ++
          dropTrailingBlanks ((rest1.takeWhile
              (fun cl => !(!(blankL cl) && decide (indentOf cl < base)))).map
              (fun cl => if blankL cl then [] else stripBase base cl)) ++
          [("```".toList), []],
        rest1.dropWhile (fun cl => !(!(blankL cl) && decide (indentOf cl < base))))) := by
  simp only [rstStepMain]
  rw [if_neg (by simp [h7])]
  simp only [h8]
  rw [collectCode_eq]
  have harr : ∀ (f : Line) (m : List Line), result ++ [[], f] ++ m = (result ++ [[]]) ++ f :: m := by
    intro f m
    simp
  rw [harr, dropTrailingBlanks_append _ (blankL_fence _) _]
  simp

theorem rstStepMain_testcode (result : List Line) (l : Line) (stripped : List Char)
    (indent : Nat) (rest : List Line)
    (h7 : matchTestcode stripped = true) :
    rstStepMain result l stripped indent rest =
      (let rest1 := skipBlanks rest
       let base := match rest1 with
         | nl :: _ => if blankL nl then 4 else leadWs nl
         | [] => 4
       (result ++ [[], ("```python".toList)] ++
          dropTrailingBlanks ((rest1.takeWhile
              (fun cl => !(!(blankL cl) && decide (indentOf cl < base)))).map
              (fun cl => if blankL cl then [] else stripBase base cl)) ++
          [("```".toList), []],
        rest1.dropWhile (fun cl => !(!(blankL cl) && decide (indentOf cl < base))))) := by
  have hpy : blankL ("```python".toList) = false := by decide
  simp only [rstStepMain]
  rw [if_pos (by simp [h7])]
  rw [collectCode_eq]
  rw [popTrailingGuard_eq hpy]
  have harr : ∀ (f : Line) (m : List Line), result ++ [[], f] ++ m = (result ++ [[]]) ++ f :: m := by
    intro f m
    simp
  rw [harr, dropTrailingBlanks_append _ hpy _]
  simp

/-- Claim C4 (amended): a code-block directive skips the directive line and
the following blank and option lines, while a testcode directive skips only
the following blank lines (an option line after the directive is collected
into the fence body); both take the base
indentation from the body's first non-blank line (4 if the body is empty),
collects exactly the lines up to the first non-blank line indented less than
the base (blank lines kept as empty lines), strips exactly the base
indentation from each, drops trailing blank lines, and emits the body inside
a fence tagged with the declared language (the captured word or python for
code-block, python for testcode); the remaining lines are exactly the
uncollected ones.  Concretely, a bash code-block with a 4-space two-line
body plus a trailing blank yields a bash fence containing exactly the two
lines. -/
theorem claim_C4 :
    (∀ (result : List Line) (l : Line) (rest : List Line) (cap : List Char),
      matchTestFamily (pyStrip l) = false → matchHighlight (pyStrip l) = false →
      matchOnlyHtml (pyStrip l) = false → matchIndex (pyStrip l) = false →
      matchTargetDef (pyStrip l) = false →
      (∀ u, rest.head? = some u → (pyStrip u = [] ∨ isUnderline (pyStrip u) = false)) →
      matchTestcode (pyStrip l) = false →
      matchCodeBlockDir (pyStrip l) = some cap →
      rstStep result l rest =
        (let lang := if cap.isEmpty then ("python".toList) else cap
         let rest1 := skipBlankOpt rest
         let base := match rest1 with
           | nl :: _ => if blankL nl then 4 else leadWs nl
           | [] => 4
         (result ++ [[], ("```".toList) ++ lang] ++
            dropTrailingBlanks ((rest1.takeWhile
                (fun cl => !(!(blankL cl) && decide (indentOf cl < base)))).map
                (fun cl => if blankL cl then [] else stripBase base cl)) ++
            [("```".toList), []],
          rest1.dropWhile (fun cl => !(!(blankL cl) && decide (indentOf cl < base)))))) ∧
    (∀ (result : List Line) (l : Line) (rest : List Line),
      matchTestFamily (pyStrip l) = false → matchHighlight (pyStrip l) = false →
      matchOnlyHtml (pyStrip l) = false → matchIndex (pyStrip l) = false →
      matchTargetDef (pyStrip l) = false →
      (∀ u, rest.head? = some u → (pyStrip u = [] ∨ isUnderline (pyStrip u) = false)) →
      matchTestcode (pyStrip l) = true →
      rstStep result l rest =
        (let rest1 := skipBlanks rest
         let base := match rest1 with
           | nl :: _ => if blankL nl then 4 else leadWs nl
           | [] => 4
         (result ++ [[], ("```python".toList)] ++
            dropTrailingBlanks ((rest1.takeWhile
                (fun cl => !(!(blankL cl) && decide (indentOf cl < base)))).map
                (fun cl => if blankL cl then [] else stripBase base cl)) ++
            [("```".toList), []],
          rest1.dropWhile (fun cl => !(!(blankL cl) && decide (indentOf cl < base)))))) ∧
    rst_to_markdown ".. code-block:: bash\n\n    ls -la\n    pwd\n\n" =
      "```bash\nls -la\npwd\n```" := by
  refine ⟨?_, ?_, by decide⟩
  · intro result l rest cap h1 h2 h3 h4 h5 hu h7 h8
    cases rest with
    | nil =>
      simp only [rstStep]
      rw [if_neg (by simp [h1]), if_neg (by simp [h2]), if_neg (by simp [h3]),
        if_neg (by simp [h4]), if_neg (by simp [h5])]
      exact rstStepMain_codeblock result l (pyStrip l) (indentOf l) [] cap h7 h8
    | cons u rest2 =>
      simp only [rstStep]
      rw [if_neg (by simp [h1]), if_neg (by simp [h2]), if_neg (by simp [h3]),
        if_neg (by simp [h4]), if_neg (by simp [h5]), if_neg ?_]
      · exact rstStepMain_codeblock result l (pyStrip l) (indentOf l) (u :: rest2) cap h7 h8
      · rcases hu u rfl with h | h
        · simp [h]
        · simp [h]
  · intro result l rest h1 h2 h3 h4 h5 hu h7
    cases rest with
    | nil =>
      simp only [rstStep]
      rw [if_neg (by simp [h1]), if_neg (by simp [h2]), if_neg (by simp [h3]),
        if_neg (by simp [h4]), if_neg (by simp [h5])]
      exact rstStepMain_testcode result l (pyStrip l) (indentOf l) [] h7
    | cons u rest2 =>
      simp only [rstStep]
      rw [if_neg (by simp [h1]), if_neg (by simp [h2]), if_neg (by simp [h3]),
        if_neg (by simp [h4]), if_neg (by simp [h5]), if_neg ?_]
      · exact rstStepMain_testcode result l (pyStrip l) (indentOf l) (u :: rest2) h7
      · rcases hu u rfl with h | h
        · simp [h]
        · simp [h]

/-- Claim C4 witness: the code-block branch at the concrete bash directive
with a two-line indented body and a trailing blank line. -/
theorem claim_C4_witness :
    rstStep [] (".. code-block:: bash".toList)
        [([] : Line), ("    ls -la".toList), ("    pwd".toList), ([] : Line)] =
      (let lang := if ("bash".toList).isEmpty then ("python".toList) else ("bash".toList)
       let rest1 := skipBlankOpt [([] : Line), ("    ls -la".toList), ("    pwd".toList),
         ([] : Line)]
       let base := match rest1 with
         | nl :: _ => if blankL nl then 4 else leadWs nl
         | [] => 4
       (([] : List Line) ++ [[], ("```".toList) ++ lang] ++
          dropTrailingBlanks ((rest1.takeWhile
              (fun cl => !(!(blankL cl) && decide (indentOf cl < base)))).map
              (fun cl => if blankL cl then [] else stripBase base cl)) ++
          [("```".toList), []],
        rest1.dropWhile (fun cl => !(!(blankL cl) && decide (indentOf cl < base))))) :=
  claim_C4.1 [] (".. code-block:: bash".toList)
    [([] : Line), ("    ls -la".toList), ("    pwd".toList), ([] : Line)] ("bash".toList)
    (by decide) (by decide) (by decide) (by decide) (by decide) (by decide) (by decide)
    (by decide)

/-- Claim C4 counterexample: the testcode handler skips only blank lines
after the directive, not option lines, so an option line following a
testcode directive is collected into the python fence body instead of being
skipped as the claim states. -/
theorem claim_C4_counterexample :
    rst_to_markdown ".. testcode::\n   :hide:\n   print(1)" =
      "```python\n:hide:\nprint(1)\n```" := by decide

/-! ### The literal-block handler -/

theorem matchDotsKw_false {kw s : List Char} (h : ("..".toList).isPrefixOf s = false) :
    matchDotsKw kw s = false := by
  unfold matchDotsKw
  rw [h]
  rfl

theorem matchTestFamily_false {s : List Char} (h : ("..".toList).isPrefixOf s = false) :
    matchTestFamily s = false := by
  unfold matchTestFamily
  rw [matchDotsKw_false h, matchDotsKw_false h, matchDotsKw_false h]
  rfl

theorem matchHighlight_false {s : List Char} (h : ("..".toList).isPrefixOf s = false) :
    matchHighlight s = false := matchDotsKw_false h

theorem matchOnlyHtml_false {s : List Char} (h : ("..".toList).isPrefixOf s = false) :
    matchOnlyHtml s = false := by
  unfold matchOnlyHtml
  rw [h]
  rfl

theorem matchIndex_false {s : List Char} (h : ("..".toList).isPrefixOf s = false) :
    matchIndex s = false := matchDotsKw_false h

theorem matchTargetDef_false {s : List Char} (h : ("..".toList).isPrefixOf s = false) :
    matchTargetDef s = false := by
  unfold matchTargetDef
  rw [h]
  rfl

theorem matchTestcode_false {s : List Char} (h : ("..".toList).isPrefixOf s = false) :
    matchTestcode s = false := matchDotsKw_false h

theorem matchCodeBlockDir_none {s : List Char} (h : ("..".toList).isPrefixOf s = false) :
    matchCodeBlockDir s = none := by
  unfold matchCodeBlockDir
  rw [h]
  rfl

theorem rstStepMain_literal (result : List Line) (l : Line) (stripped : List Char)
    (indent : Nat) (rest : List Line) (nl : Line) (rest2 : List Line)
    (h7 : matchTestcode stripped = false)
    (h8 : matchCodeBlockDir stripped = none)
    (h9 : endsDoubleColon stripped = true)
    (h10 : ("..".toList).isPrefixOf stripped = false)
    (hsb : skipBlanks rest = nl :: rest2)
    (hin : (("  ".toList).isPrefixOf nl || headIs '\t' nl) = true) :
    rstStepMain result l stripped indent rest =
      (let pfx := pyRStrip (stripped.dropLast.dropLast)
       let base := leadWs nl
       let body := dropTrailingBlanks (((nl :: rest2).takeWhile
           (fun cl => !(!(blankL cl) && decide (indentOf cl < base)))).map
           (fun cl => if blankL cl then [] else stripBase base cl))
       let lang := if hasIniPattern (joinLines body) && !(hasPyKeyword (joinLines body))
                   then ("ini".toList) else ("python".toList)
       ((if pfx.isEmpty then result else result ++ [pfx ++ [':']]) ++
          [[], ("```".toList) ++ lang] ++ body ++ [("```".toList), []],
        (nl :: rest2).dropWhile (fun cl => !(!(blankL cl) && decide (indentOf cl < base))))) := by
  simp only [rstStepMain]
  rw [if_neg (by simp [h7])]
  simp only [h8]
  rw [if_pos (by rw [h9, h10]; rfl)]
  rw [hsb]
  simp only []
  rw [if_pos hin]
  rw [collectCode_eq]

/-- Claim C5: a literal block (a line ending in a double colon that is not a
directive, with an indented body) emits the prefix as a paragraph line, then
the dedented body in a fence whose tag is ini exactly when the body matches
an INI-style marker (a bracketed section, a semicolon comment, or a
key-equals-value line) and does not match any code-statement keyword
pattern, and python otherwise — the keyword check takes precedence.
Concretely a section-plus-assignment body is tagged ini while a
def-plus-body body is tagged python. -/
theorem claim_C5 :
    (∀ (result : List Line) (l : Line) (rest : List Line) (nl : Line) (rest2 : List Line),
      (∀ u, rest.head? = some u → (pyStrip u = [] ∨ isUnderline (pyStrip u) = false)) →
      endsDoubleColon (pyStrip l) = true →
      ("..".toList).isPrefixOf (pyStrip l) = false →
      skipBlanks rest = nl :: rest2 →
      (("  ".toList).isPrefixOf nl || headIs '\t' nl) = true →
      rstStep result l rest =
        (let pfx := pyRStrip ((pyStrip l).dropLast.dropLast)
         let base := leadWs nl
         let body := dropTrailingBlanks (((nl :: rest2).takeWhile
             (fun cl => !(!(blankL cl) && decide (indentOf cl < base)))).map
             (fun cl => if blankL cl then [] else stripBase base cl))
         let lang := if hasIniPattern (joinLines body) && !(hasPyKeyword (joinLines body))
                     then ("ini".toList) else ("python".toList)
         ((if pfx.isEmpty then result else result ++ [pfx ++ [':']]) ++
            [[], ("```".toList) ++ lang] ++ body ++ [("```".toList), []],
          (nl :: rest2).dropWhile
            (fun cl => !(!(blankL cl) && decide (indentOf cl < base)))))) ∧
    rst_to_markdown "Config::\n\n  [server]\n  host = localhost" =
      "Config:\n\n```ini\n[server]\nhost = localhost\n```" ∧
    rst_to_markdown "Example::\n\n  def f():\n      pass" =
      "Example:\n\n```python\ndef f():\n    pass\n```" := by
  refine ⟨?_, by decide, by decide⟩
  intro result l rest nl rest2 hu h9 h10 hsb hin
  cases rest with
  | nil => simp [skipBlanks] at hsb
  | cons u rest3 =>
    simp only [rstStep]
    rw [if_neg (by simp [matchTestFamily_false h10]),
      if_neg (by simp [matchHighlight_false h10]),
      if_neg (by simp [matchOnlyHtml_false h10]),
      if_neg (by simp [matchIndex_false h10]),
      if_neg (by simp [matchTargetDef_false h10]), if_neg ?_]
    · exact rstStepMain_literal result l (pyStrip l) (indentOf l) (u :: rest3) nl rest2
        (matchTestcode_false h10) (matchCodeBlockDir_none h10) h9 h10 hsb hin
    · rcases hu u rfl with h | h
      · simp [h]
      · simp [h]

/-- Claim C5 witness: the literal-block branch at the concrete config body,
whose fence the classification tags ini. -/
theorem claim_C5_witness :
    rstStep [] ("Config::".toList)
        [([] : Line), ("  [server]".toList), ("  host = localhost".toList)] =
      (let pfx := pyRStrip ((pyStrip ("Config::".toList)).dropLast.dropLast)
       let base := leadWs ("  [server]".toList)
       let body := dropTrailingBlanks ((([("  [server]".toList),
           ("  host = localhost".toList)] : List Line).takeWhile
           (fun cl => !(!(blankL cl) && decide (indentOf cl < base)))).map
           (fun cl => if blankL cl then [] else stripBase base cl))
       let lang := if hasIniPattern (joinLines body) && !(hasPyKeyword (joinLines body))
                   then ("ini".toList) else ("python".toList)
       ((if pfx.isEmpty then ([] : List Line) else [] ++ [pfx ++ [':']]) ++
          [[], ("```".toList) ++ lang] ++ body ++ [("```".toList), []],
        ([("  [server]".toList), ("  host = localhost".toList)] : List Line).dropWhile
          (fun cl => !(!(blankL cl) && decide (indentOf cl < base))))) :=
  claim_C5.1 [] ("Config::".toList)
    [([] : Line), ("  [server]".toList), ("  host = localhost".toList)]
    ("  [server]".toList) [("  host = localhost".toList)]
    (by decide) (by decide) (by decide) (by decide) (by decide)

end ConvertRst
